import Mathlib

/-!
Verification development for the redo-log codec of the `mdbutil` repository.

The Rust sources under `src/` are shallowly embedded below: machine
integers (`u8`/`u32`/`u64`/`usize`) become `Nat` with explicit `% 2^w`
wherever overflow can occur, byte buffers become `List Nat` (each entry a
byte value `< 256`), and fallible operations return
`Except ParseErr _`.  `usize` is 64-bit, matching the target platform.
-/

set_option maxRecDepth 1000000

/-- `std::io::ErrorKind` values actually produced by the embedded code,
plus `panic` for Rust panics (slice-range violations, `todo!()`,
arithmetic that panics in debug builds, `panic!` in `From<u8>`). -/
inductive ParseErr where
  | notFound
  | invalidData
  | unexpectedEof
  | invalidInput
  | panic
deriving DecidableEq, Repr

/-- `2^64`: one past the largest `usize`/`u64` value. -/
def U64 : Nat := 18446744073709551616

/-- `u32::MAX` (`MLOG_DECODE_ERROR` in `mtr0log.rs`). -/
def MLOG_DECODE_ERROR : Nat := 4294967295

/-- The CRC-32C (Castagnoli) reflected polynomial used by the `crc32c`
crate the sources rely on. -/
def crcPoly : Nat := 0x82F63B78

/-- One shift-or-xor step of the bitwise CRC-32C computation. -/
def crcBit (c : Nat) : Nat :=
  if c &&& 1 = 1 then (c >>> 1) ^^^ crcPoly else c >>> 1

/-- Fold one byte into a CRC-32C accumulator. -/
def crcByte (c b : Nat) : Nat :=
  crcBit (crcBit (crcBit (crcBit (crcBit (crcBit (crcBit (crcBit (c ^^^ b))))))))

/-- `crc32c::crc32c(bytes)`: standard CRC-32C with initial value and
final xor `0xFFFFFFFF`. -/
def crc32cList (l : List Nat) : Nat :=
  (l.foldl crcByte 0xFFFFFFFF) ^^^ 0xFFFFFFFF

/-- `u32::to_be_bytes` (`mach::mach_write_to_4` payload). -/
def be4 (v : Nat) : List Nat :=
  [v / 2 ^ 24 % 256, v / 2 ^ 16 % 256, v / 2 ^ 8 % 256, v % 256]

/-- `u64::to_be_bytes` (`mach::mach_write_to_8` payload). -/
def be8 (v : Nat) : List Nat :=
  [v / 2 ^ 56 % 256, v / 2 ^ 48 % 256, v / 2 ^ 40 % 256, v / 2 ^ 32 % 256,
   v / 2 ^ 24 % 256, v / 2 ^ 16 % 256, v / 2 ^ 8 % 256, v % 256]

/-- `mach::mach_read_from_2`: big-endian `u16` from the first two bytes. -/
def mach_read_from_2 (l : List Nat) : Nat :=
  l.getD 0 0 * 2 ^ 8 + l.getD 1 0

/-- `mach::mach_read_from_4`: big-endian `u32` from the first four bytes. -/
def mach_read_from_4 (l : List Nat) : Nat :=
  l.getD 0 0 * 2 ^ 24 + l.getD 1 0 * 2 ^ 16 + l.getD 2 0 * 2 ^ 8 + l.getD 3 0

/-- `mach::mach_read_from_8`: big-endian `u64` from the first eight bytes. -/
def mach_read_from_8 (l : List Nat) : Nat :=
  l.getD 0 0 * 2 ^ 56 + l.getD 1 0 * 2 ^ 48 + l.getD 2 0 * 2 ^ 40 +
  l.getD 3 0 * 2 ^ 32 + l.getD 4 0 * 2 ^ 24 + l.getD 5 0 * 2 ^ 16 +
  l.getD 6 0 * 2 ^ 8 + l.getD 7 0

/-- `ring.rs::pos_to_offset`: map an abstract position to a buffer offset
(`hdr + (pos - hdr) % body` once past the header).  Rust's `%` panics when
`body = 0`; the runtime wrappers below surface that as `ParseErr.panic`,
while this pure version uses `Nat`'s `x % 0 = x` convention. -/
def pos_to_offset (hdr body pos : Nat) : Nat :=
  if pos < hdr then pos else hdr + (pos - hdr) % body

/-- `ring.rs::RingReader`: a borrowed byte buffer with a cursor position
and a header size.  The borrow `&'a [u8]` is embedded by value. -/
structure RingReader where
  buf : List Nat
  pos : Nat
  header : Nat
deriving DecidableEq, Repr

/-- `RingReader::buf_at`. -/
def RingReader.buf_at (buf : List Nat) (hdr pos : Nat) : RingReader :=
  { buf := buf, pos := pos, header := hdr }

/-- `RingReader::new`. -/
def RingReader.new (buf : List Nat) : RingReader :=
  RingReader.buf_at buf 0 0

/-- `RingReader::len`. -/
def RingReader.len (r : RingReader) : Nat := r.buf.length

/-- `RingReader::capacity`. -/
def RingReader.capacity (r : RingReader) : Nat := r.buf.length - r.header

/-- `RingReader::pos_to_offset`. -/
def RingReader.posToOffset (r : RingReader) (pos : Nat) : Nat :=
  pos_to_offset r.header (r.buf.length - r.header) pos

/-- `RingReader::pos_to_offset` with Rust's panic on `% 0` made explicit:
when the body size is zero and the position is past the header, the Rust
code divides by zero. -/
def RingReader.offsetE (r : RingReader) (pos : Nat) : Except ParseErr Nat :=
  if pos < r.header then .ok pos
  else if r.buf.length ≤ r.header then .error .panic
  else .ok (r.header + (pos - r.header) % (r.buf.length - r.header))

/-- The byte the ring exposes at abstract position `p` (0 when out of
range, which never happens in the verified scenarios). -/
def RingReader.byteAt (r : RingReader) (p : Nat) : Nat :=
  r.buf.getD (r.posToOffset p) 0

/-- `RingReader::ensure`: fail when the buffer is shorter than `t` or the
position would overflow `usize` after adding `t`. -/
def RingReader.ensure (r : RingReader) (t : Nat) : Except ParseErr Unit :=
  if r.buf.length < t then .error .unexpectedEof
  else if U64 ≤ r.pos + t then .error .unexpectedEof
  else .ok ()

/-- `RingReader::advance`: checked position addition; on `usize` overflow
the position is left unchanged and `false` is returned. -/
def RingReader.advance (r : RingReader) (bytes : Nat) : RingReader × Bool :=
  if r.pos + bytes < U64 then ({ r with pos := r.pos + bytes }, true)
  else (r, false)

/-- The `Add` impl for `&RingReader` (`r + n`): clone, advance, ignore the
overflow flag. -/
def RingReader.addPos (r : RingReader) (bytes : Nat) : RingReader :=
  (r.advance bytes).1

/-- `RingReader::peek_1`. -/
def RingReader.peek1 (r : RingReader) : Except ParseErr Nat :=
  match r.ensure 1 with
  | .error e => .error e
  | .ok _ =>
    match r.offsetE r.pos with
    | .error e => .error e
    | .ok off => .ok (r.buf.getD off 0)

/-- One call of `<RingReader as Read>::read` asking for `n` bytes: copy a
first run up to the end of the buffer, then (on wrap) a second run from
the start of the body.  The unchecked `self.pos += …` additions wrap
modulo `2^64` (release semantics; debug builds would panic).  The
`copy_from_slice` calls panic when slice bounds are violated.
The reader is returned alongside the result in both outcomes because the
Rust methods take `&mut self`: a failing call can leave the cursor
partially advanced. -/
def RingReader.readStep (r : RingReader) (n : Nat) :
    (Except ParseErr (List Nat)) × RingReader :=
  match r.offsetE r.pos with
  | .error e => (.error e, r)
  | .ok off0 =>
    let size1 := min (r.buf.length - off0) n
    let part1 := (r.buf.drop off0).take size1
    let r1 : RingReader := { r with pos := (r.pos + size1) % U64 }
    if size1 = n then
      (.ok part1, r1)
    else
      let size2 := min off0 (n - size1)
      if r.buf.length < r.header + size2 then (.error .panic, r1)
      else
        let part2 := (r.buf.drop r.header).take size2
        (.ok (part1 ++ part2), { r1 with pos := (r1.pos + size2) % U64 })

/-- `std::io::Read::read_exact` specialised to the ring reader: repeat
`read` until the requested count is filled; a zero-length read yields
`UnexpectedEof`.  `fuel` bounds the iteration count (each successful read
returns at least one byte, so `n` rounds always suffice). -/
def RingReader.readExactCore :
    Nat → RingReader → Nat → (Except ParseErr (List Nat)) × RingReader
  | _, r, 0 => (.ok [], r)
  | 0, r, _ => (.error .panic, r)
  | fuel + 1, r, n =>
    match r.readStep n with
    | (.error e, r1) => (.error e, r1)
    | (.ok bs, r1) =>
      if bs.length = 0 then (.error .unexpectedEof, r1)
      else if n ≤ bs.length then (.ok bs, r1)
      else
        match RingReader.readExactCore fuel r1 (n - bs.length) with
        | (.error e, r2) => (.error e, r2)
        | (.ok rest, r2) => (.ok (bs ++ rest), r2)

/-- `read_exact` entry point. -/
def RingReader.readExact (r : RingReader) (n : Nat) :
    (Except ParseErr (List Nat)) × RingReader :=
  RingReader.readExactCore n r n

/-- `byteorder::ReadBytesExt::read_u8` on the ring reader (used by
`mlog_decode_varint`): a bare `read_exact` of one byte, with no `ensure`. -/
def RingReader.readU8 (r : RingReader) : Except ParseErr (Nat × RingReader) :=
  match r.readExact 1 with
  | (.error e, _) => .error e
  | (.ok bs, r1) => .ok (bs.getD 0 0, r1)

/-- `RingReader::read_1`. -/
def RingReader.read1 (r : RingReader) : (Except ParseErr Nat) × RingReader :=
  match r.ensure 1 with
  | .error e => (.error e, r)
  | .ok _ =>
    match r.readExact 1 with
    | (.error e, r1) => (.error e, r1)
    | (.ok bs, r1) => (.ok (bs.getD 0 0), r1)

/-- `RingReader::read_4` (big-endian via `mach_read_from_4`). -/
def RingReader.read4 (r : RingReader) : (Except ParseErr Nat) × RingReader :=
  match r.ensure 4 with
  | .error e => (.error e, r)
  | .ok _ =>
    match r.readExact 4 with
    | (.error e, r1) => (.error e, r1)
    | (.ok bs, r1) => (.ok (mach_read_from_4 bs), r1)

/-- `RingReader::read_8` (big-endian via `mach_read_from_8`). -/
def RingReader.read8 (r : RingReader) : (Except ParseErr Nat) × RingReader :=
  match r.ensure 8 with
  | .error e => (.error e, r)
  | .ok _ =>
    match r.readExact 8 with
    | (.error e, r1) => (.error e, r1)
    | (.ok bs, r1) => (.ok (mach_read_from_8 bs), r1)

/-- `RingReader::block` for an output buffer of length `n` (already capped
at the buffer length by the caller model): the two `copy_from_slice`
calls, with their panic conditions.  Returns the copied bytes. -/
def RingReader.blockBytes (r : RingReader) (n : Nat) :
    Except ParseErr (List Nat) :=
  match r.offsetE r.pos with
  | .error e => .error e
  | .ok start =>
    match r.offsetE ((r.pos + n) % U64) with
    | .error e => .error e
    | .ok stop =>
      if start < stop then
        if stop - start = n then .ok ((r.buf.drop start).take (stop - start))
        else .error .panic
      else
        let size1 := r.buf.length - start
        if n < size1 then .error .panic
        else if stop < r.header ∨ n - size1 ≠ stop - r.header then .error .panic
        else .ok (r.buf.drop start ++ (r.buf.drop r.header).take (stop - r.header))

/-- `RingReader::crc32c(size)`: copy `size` bytes out across the wrap
(after `block`'s truncation of the scratch buffer to the backing length)
and CRC them; a short copy is `UnexpectedEof`. -/
def RingReader.crc32cRange (r : RingReader) (size : Nat) :
    Except ParseErr Nat :=
  match r.blockBytes (min size r.buf.length) with
  | .error e => .error e
  | .ok bs =>
    if min size r.buf.length ≠ size then .error .unexpectedEof
    else .ok (crc32cList bs)

/-! ## `mtr0log.rs`: variable-length integer codec -/

/-- `MIN_2BYTE`. -/
def MIN_2BYTE : Nat := 1 <<< 7

/-- `MIN_3BYTE`. -/
def MIN_3BYTE : Nat := MIN_2BYTE + (1 <<< 14)

/-- `MIN_4BYTE`. -/
def MIN_4BYTE : Nat := MIN_3BYTE + (1 <<< 21)

/-- `MIN_5BYTE`. -/
def MIN_5BYTE : Nat := MIN_4BYTE + (1 <<< 28)

/-- One round of the `mlog_decode_varint_length` loop (`byte <<= 1` on a
`u8` keeps the low eight bits).  `fuel = 8` always suffices: after eight
shifts the byte is zero. -/
def varintLengthLoop : Nat → Nat → Nat → Nat
  | 0, _, len => len
  | fuel + 1, byte, len =>
    if byte &&& 0x80 > 0 then varintLengthLoop fuel ((byte <<< 1) % 256) (len + 1)
    else len

/-- `mlog_decode_varint_length`: number of leading one bits plus one. -/
def mlog_decode_varint_length (byte : Nat) : Nat :=
  varintLengthLoop 8 byte 1

/-- `mlog_decode_varint`, generic over the byte source exactly as the Rust
function is generic over `impl Read`. -/
def mlogDecodeVarintG {σ : Type} (rd : σ → Except ParseErr (Nat × σ)) (s : σ) :
    Except ParseErr (Nat × σ) := do
  let (b0, s) ← rd s
  if b0 < MIN_2BYTE then
    pure (b0, s)
  else if b0 < 0xc0 then do
    let (b1, s) ← rd s
    pure (MIN_2BYTE + ((b0 &&& 0xFFFFFF7F) <<< 8 ||| b1), s)
  else if b0 < 0xe0 then do
    let (b1, s) ← rd s
    let (b2, s) ← rd s
    pure (MIN_3BYTE + ((b0 &&& 0xFFFFFF3F) <<< 16 ||| b1 <<< 8 ||| b2), s)
  else if b0 < 0xf0 then do
    let (b1, s) ← rd s
    let (b2, s) ← rd s
    let (b3, s) ← rd s
    pure (MIN_4BYTE + ((b0 &&& 0xFFFFFF1F) <<< 24 ||| b1 <<< 16 ||| b2 <<< 8 ||| b3), s)
  else if b0 = 0xf0 then do
    let (c0, s) ← rd s
    let (c1, s) ← rd s
    let (c2, s) ← rd s
    let (c3, s) ← rd s
    let v := c0 <<< 24 ||| c1 <<< 16 ||| c2 <<< 8 ||| c3
    if v ≤ MLOG_DECODE_ERROR - MIN_5BYTE then pure (MIN_5BYTE + v, s)
    else .error .invalidData
  else .error .invalidData

/-- Byte source for `&[u8]` (the slice `Read` impl used by the tests and
by `decode(encode(x))`). -/
def listReadU8 (l : List Nat) : Except ParseErr (Nat × List Nat) :=
  match l with
  | [] => .error .unexpectedEof
  | b :: t => .ok (b, t)

/-- `mlog_decode_varint` on a byte slice. -/
def mlog_decode_varint_list (l : List Nat) : Except ParseErr (Nat × List Nat) :=
  mlogDecodeVarintG listReadU8 l

/-- `mlog_decode_varint` on a `RingReader` (`impl Read` instantiated with
the ring reader, reading through `read_u8`). -/
def mlog_decode_varint_ring (r : RingReader) : Except ParseErr (Nat × RingReader) :=
  mlogDecodeVarintG RingReader.readU8 r

/-- `mlog_encode_varint`: shortest-form encoding.  The `assert!` guarding
the 5-byte branch panics for `i = u32::MAX` (`MLOG_DECODE_ERROR`); every
`as u8` cast truncates modulo 256. -/
def mlog_encode_varint (i : Nat) : Except ParseErr (List Nat) :=
  if i < MIN_2BYTE then
    .ok [i % 256]
  else if i < MIN_3BYTE then
    let i := i - MIN_2BYTE
    .ok [0x80 ||| (i >>> 8) % 256, i % 256]
  else if i < MIN_4BYTE then
    let i := i - MIN_3BYTE
    .ok [0xc0 ||| (i >>> 16) % 256, (i >>> 8) % 256, i % 256]
  else if i < MIN_5BYTE then
    let i := i - MIN_4BYTE
    .ok [0xe0 ||| (i >>> 24) % 256, (i >>> 16) % 256, (i >>> 8) % 256, i % 256]
  else if i < MLOG_DECODE_ERROR then
    let i := i - MIN_5BYTE
    .ok [0xf0, (i >>> 24) % 256, (i >>> 16) % 256, (i >>> 8) % 256, i % 256]
  else .error .panic

/-! ## `mtr.rs` / `log.rs`: sequence bits, chain builder, chain parser -/

/-- `MTR_END_MARKER`. -/
def MTR_END_MARKER : Nat := 1

/-- `MTR_SIZE_MAX`: 1 MiB. -/
def MTR_SIZE_MAX : Nat := 1 <<< 20

/-- `mtr.rs::get_sequence_bit`: `1` when `((lsn - header_size) / capacity)`
is even, else `0`.  (Rust would panic on `lsn < header_size` in debug
builds and on `capacity = 0`; all uses below satisfy `header ≤ lsn` and
`0 < capacity`.) -/
def get_sequence_bit (header_size capacity lsn : Nat) : Nat :=
  if ((lsn - header_size) / capacity) &&& 1 = 0 then 1 else 0

/-- `log.rs::Redo::get_sequence_bit`, a method of `Redo`; `first_lsn` is
`self.hdr.first_lsn` and `self.capacity()` is `self.size - first_lsn`. -/
def Redo.get_sequence_bit (first_lsn size lsn : Nat) : Nat :=
  if ((lsn - first_lsn) / (size - first_lsn)) &&& 1 = 0 then 0 else 1

/-- The 11 payload bytes of a `FILE_CHECKPOINT` chain: the
`0xfa` header byte, two zero page-identifier bytes, and the 8-byte
big-endian checkpoint LSN (as written into `temp[..11]` by
`Mtr::build_file_checkpoint`). -/
def fcPayload (lsn : Nat) : List Nat :=
  0xfa :: 0x00 :: 0x00 :: be8 lsn

/-- `Mtr::build_file_checkpoint`: validates the LSN bounds and writes the
16-byte chain `payload ++ marker ++ crc32c(payload)` (the CRC is taken
over `temp[..1 + 10]`, i.e. the 11 payload bytes, not the marker). -/
def build_file_checkpoint (header capacity lsn : Nat) :
    Except ParseErr (List Nat) :=
  if lsn < header then .error .invalidInput
  else if U64 - 1 - 16 ≤ lsn then .error .unexpectedEof
  else
    let termination_marker := get_sequence_bit header capacity (lsn + 1 + 2 + 8)
    let checksum := crc32cList (fcPayload lsn)
    .ok (fcPayload lsn ++ [termination_marker] ++ be4 checksum)

/-- `mtr0types.rs::MtrOperation`. -/
inductive MtrOperation where
  | FreePage | InitPage | Extended | Write | Memset | Memmove
  | Reserved | Option | FileCreate | FileDelete | FileRename | FileModify
  | FileCheckpoint
deriving DecidableEq, Repr

/-- `From<u8> for MtrOperation`, which panics on an unknown value.  The
`MtrOperation::try_from` used in `parse_next` goes through this impl (the
blanket `TryFrom` with `Error = Infallible`), so its `Err` arm is dead
code and the panic is the only failure mode. -/
def MtrOperation.ofByte (value : Nat) : Except ParseErr MtrOperation :=
  if value = 0x00 then .ok .FreePage
  else if value = 0x10 then .ok .InitPage
  else if value = 0x20 then .ok .Extended
  else if value = 0x30 then .ok .Write
  else if value = 0x40 then .ok .Memset
  else if value = 0x50 then .ok .Memmove
  else if value = 0x60 then .ok .Reserved
  else if value = 0x70 then .ok .Option
  else if value = 0x80 then .ok .FileCreate
  else if value = 0x90 then .ok .FileDelete
  else if value = 0xa0 then .ok .FileRename
  else if value = 0xb0 then .ok .FileModify
  else if value = 0xf0 then .ok .FileCheckpoint
  else .error .panic

/-- `mtr.rs::Mtr` (one decoded record). -/
structure Mtr where
  space_id : Nat
  page_no : Nat
  op : MtrOperation
  file_checkpoint_lsn : Option Nat
  marker : Nat
deriving DecidableEq, Repr

/-- `mtr.rs::MtrChain`. -/
structure MtrChain where
  lsn : Nat
  len : Nat
  checksum : Nat
  mtr : List Mtr
deriving DecidableEq, Repr

/-- `mtr.rs::peek_not_end_marker`: `Err(NotFound)` when the byte under the
cursor is a termination marker (`≤ MTR_END_MARKER`); peek failures
propagate. -/
def peek_not_end_marker (r : RingReader) : Except ParseErr Unit :=
  match r.peek1 with
  | .error e => .error e
  | .ok b => if b ≤ MTR_END_MARKER then .error .notFound else .ok ()

/-- The loop of `MtrChain::find_end_marker`.  Every iteration either stops
or adds `rlen ≥ 1` to `payload_len`, which is checked against
`MTR_SIZE_MAX` at the top, so `MTR_SIZE_MAX + 1` rounds of fuel always
suffice and the fuel-exhausted branch is unreachable. -/
def findEndMarkerLoop : Nat → Nat → RingReader → (Except ParseErr Nat) × RingReader
  | 0, _, r => (.error .panic, r)
  | fuel + 1, payload_len, r =>
    if MTR_SIZE_MAX ≤ payload_len then (.error .notFound, r)
    else
      match peek_not_end_marker r with
      | .error _ => (.ok payload_len, r)
      | .ok _ =>
        match r.read1 with
        | (.error e, r1) => (.error e, r1)
        | (.ok b, r1) =>
          if b &&& 0xf = 0 then
            match mlog_decode_varint_ring r1 with
            | .error e => (.error e, r1)
            | .ok (addlen, _) =>
              if MTR_SIZE_MAX ≤ payload_len then (.error .notFound, r1)
              else
                let rlen := addlen + 15
                match r1.advance rlen with
                | (r2, true) => findEndMarkerLoop fuel (payload_len + rlen) r2
                | (r2, false) => (.error .notFound, r2)
          else
            let rlen := b &&& 0xf
            match r1.advance rlen with
            | (r2, true) => findEndMarkerLoop fuel (payload_len + rlen) r2
            | (r2, false) => (.error .notFound, r2)

/-- `MtrChain::find_end_marker`: walk records until a termination marker,
returning the accumulated payload length and leaving the reader on the
marker. -/
def find_end_marker (r : RingReader) : (Except ParseErr Nat) × RingReader :=
  findEndMarkerLoop (MTR_SIZE_MAX + 1) 0 r

/-- Outcome of one iteration of the record-decoding loop of
`MtrChain::parse_next`: the loop either breaks with the accumulated
records or continues with updated state. -/
inductive RecordOutcome where
  | done (acc : List Mtr)
  | next (l : RingReader) (got : Bool) (sid pno : Nat) (acc : List Mtr)
deriving DecidableEq, Repr

/-- Outcome of the record-identifier section (source lines 162–204): break
out of the loop (a malformed record), `continue` (a same-page record with
opcode `≤ INIT_PAGE`), or proceed to the opcode dispatch. -/
inductive IdStep where
  | brk
  | cont
  | proceed (l : RingReader) (got : Bool) (sid pno rlen : Nat)
deriving DecidableEq, Repr

/-- Record length computation (source lines 146–151): `rlen = b & 0xf`,
or for the extended form the varint plus 15 minus the varint's own
length; the varint is consumed from `l`. -/
def rlenStep (b : Nat) (l1 : RingReader) : Except ParseErr (Nat × RingReader) :=
  if b &&& 0xf = 0 then
    match l1.peek1 with
    | .error e => .error e
    | .ok pk =>
      match mlog_decode_varint_ring l1 with
      | .error e => .error e
      | .ok (addlen, la) => .ok (addlen + 15 - mlog_decode_varint_length pk, la)
  else .ok (b &&& 0xf, l1)

/-- The identifier section of the record loop (source lines 162–204):
unless this is a same-page record, decode `space_id` and `page_no` as
varints, breaking on a malformed length; a same-page record with opcode
`≤ INIT_PAGE` logs and continues. -/
def idStep (b : Nat) (got0 : Bool) (sid0 pno0 rlen1 : Nat) (l2 : RingReader) :
    Except ParseErr IdStep :=
  if got0 = false ∨ b &&& 0x80 = 0 then
    match l2.peek1 with
    | .error e => .error e
    | .ok pk =>
      match mlog_decode_varint_ring l2 with
      | .error e => .error e
      | .ok (space_id, l3) =>
        if rlen1 < mlog_decode_varint_length pk then .ok .brk
        else
          match l3.peek1 with
          | .error e => .error e
          | .ok pk2 =>
            match mlog_decode_varint_ring l3 with
            | .error e => .error e
            | .ok (page_no, l4) =>
              if rlen1 - mlog_decode_varint_length pk < mlog_decode_varint_length pk2
              then .ok .brk
              else .ok (.proceed l4 (b &&& 0x80 == 0) space_id page_no
                (rlen1 - mlog_decode_varint_length pk - mlog_decode_varint_length pk2))
  else if b &&& 0x70 ≤ 0x10 then .ok .cont
  else .ok (.proceed l2 got0 sid0 pno0 rlen1)

/-- The opcode dispatch and record emission of the record loop (source
lines 206–269).  Notes kept faithful to the source:
* `MtrOperation::try_from` goes through the panicking `From<u8>` impl, so
  its `Err` arm (source lines 236–258) is unreachable and the unknown-op
  case is a panic;
* in the `FILE_CHECKPOINT` arm the 8 LSN bytes are consumed by `read_8`
  and then again by the closing `l.advance(rlen)` — `rlen` is not
  decremented, so `l` ends 8 bytes past the record;
* `rlen -= olen` in the `MEMSET` arm is `u32` arithmetic (wraps in
  release builds, panics in debug builds when `olen > rlen`);
* the padding record `b == 0xf2 && space_id == 0 && page_no == 0 &&
  rlen == 0` leaves `mtr_op = 0`, which maps to `FreePage`;
* any other record with `rlen == 0` and `got_page_op` unset hits the
  source's `todo!("malformed")` panic. -/
def tailStep (term_byte b : Nat) (l : RingReader) (got : Bool) (sid pno rlen : Nat)
    (acc : List Mtr) : Except ParseErr RecordOutcome :=
  if got then
    match (if b &&& 0x70 = 0x40 then
             match l.peek1 with
             | .error e => .error e
             | .ok pk =>
               match mlog_decode_varint_ring l with
               | .error e => .error e
               | .ok (_offset, lb) =>
                 .ok ((rlen + (2 ^ 32 - mlog_decode_varint_length pk)) % 2 ^ 32, lb)
           else .ok (rlen, l) : Except ParseErr (Nat × RingReader)) with
    | .error e => .error e
    | .ok (rlen2, l5) =>
      match MtrOperation.ofByte (b &&& 0x70) with
      | .error e => .error e
      | .ok op =>
        .ok (.next (l5.addPos rlen2) got sid pno (acc ++ [⟨sid, pno, op, none, term_byte⟩]))
  else if 0 < rlen then
    match (if b &&& 0xf0 = 0xf0 then
             match l.read8 with
             | (.error e, _) => .error e
             | (.ok v, lb) => .ok (some v, lb)
           else .ok (none, l) : Except ParseErr (Option Nat × RingReader)) with
    | .error e => .error e
    | .ok (fc, l5) =>
      match MtrOperation.ofByte (b &&& 0xf0) with
      | .error e => .error e
      | .ok op =>
        .ok (.next (l5.addPos rlen) got sid pno (acc ++ [⟨sid, pno, op, fc, term_byte⟩]))
  else if b = 0xf0 + 2 ∧ sid = 0 ∧ pno = 0 then
    match MtrOperation.ofByte 0 with
    | .error e => .error e
    | .ok op =>
      .ok (.next (l.addPos rlen) got sid pno (acc ++ [⟨sid, pno, op, none, term_byte⟩]))
  else .error .panic

/-- One iteration of the record-decoding loop of `MtrChain::parse_next`
(source lines 119–270), operating on the clone `l` of the chain start.
The `RESERVED` opcode band only logs a warning and falls through;
`term_byte` is the chain's termination byte, stored into every record. -/
def recordIter (term_byte : Nat) (l0 : RingReader) (got0 : Bool) (sid0 pno0 : Nat)
    (acc : List Mtr) : Except ParseErr RecordOutcome :=
  let recs := l0
  let l1 := recs.addPos 1
  match recs.peek1 with
  | .error e => .error e
  | .ok b =>
    if b ≤ MTR_END_MARKER then .ok (.done acc)
    else
      match rlenStep b l1 with
      | .error e => .error e
      | .ok (rlen1, l2) =>
        match idStep b got0 sid0 pno0 rlen1 l2 with
        | .error e => .error e
        | .ok .brk => .ok (.done acc)
        | .ok .cont => .ok (.next l2 got0 sid0 pno0 acc)
        | .ok (.proceed l got sid pno rlen) =>
          tailStep term_byte b l got sid pno rlen acc

/-- The record-decoding loop: iterate `recordIter`.  Each iteration
advances `l` by at least one byte and every position is capped by the
`usize` space, so `U64 + 1` rounds of fuel always suffice and the
fuel-exhausted branch is unreachable. -/
def recordLoop (term_byte : Nat) :
    Nat → RingReader → Bool → Nat → Nat → List Mtr → Except ParseErr (List Mtr)
  | 0, _, _, _, _, _ => .error .panic
  | fuel + 1, l0, got0, sid0, pno0, acc =>
    match recordIter term_byte l0 got0 sid0 pno0 acc with
    | .error e => .error e
    | .ok (.done acc) => .ok acc
    | .ok (.next l got sid pno acc) => recordLoop term_byte fuel l got sid pno acc

/-- `MtrChain::parse_next`.  The reader argument is `&mut`; the returned
reader is its final state, also on error. -/
def parse_next (r : RingReader) : (Except ParseErr MtrChain) × RingReader :=
  match peek_not_end_marker r with
  | .error e => (.error e, r)
  | .ok _ =>
    let mtr_start := r
    let lsn := r.pos
    match find_end_marker r with
    | (.error e, r1) => (.error e, r1)
    | (.ok _payload_len, r1) =>
      let termination_marker_offset := r1.pos - mtr_start.pos
      match (mtr_start.addPos termination_marker_offset).peek1 with
      | .error e => (.error e, r1)
      | .ok termination_byte =>
        let termination_lsn := lsn + termination_marker_offset
        if termination_byte ≠ get_sequence_bit r1.header r1.capacity termination_lsn
        then
          (.error .notFound, r1)
        else
          match mtr_start.crc32cRange termination_marker_offset with
          | .error e => (.error e, r1)
          | .ok real_crc =>
            let r2 := (r1.advance 1).1
            match r2.read4 with
            | (.error e, r3) => (.error e, r3)
            | (.ok expected_crc, r3) =>
              if real_crc ≠ expected_crc then
                (.error .invalidData, r3)
              else
                match recordLoop termination_byte (U64 + 1) mtr_start false 0 0 [] with
                | .error e => (.error e, r3)
                | .ok recs =>
                  (.ok { lsn := lsn, len := termination_marker_offset + 1 + 4,
                         checksum := real_crc, mtr := recs }, r3)

/-! ## `log.rs`: header checkpoint parsing (current `FORMAT_10_8` path) -/

/-- `FORMAT_10_8` (`0x50687973`). -/
def FORMAT_10_8 : Nat := 0x50687973

/-- `FORMAT_ENCRYPTED` (`1u32 << 31`). -/
def FORMAT_ENCRYPTED : Nat := 1 <<< 31

/-- `FORMAT_ENC_10_8`. -/
def FORMAT_ENC_10_8 : Nat := FORMAT_10_8 ||| FORMAT_ENCRYPTED

/-- `CHECKPOINT_1`. -/
def CHECKPOINT_1 : Nat := 4096

/-- `CHECKPOINT_2`. -/
def CHECKPOINT_2 : Nat := 8192

/-- `FIRST_LSN` (= `START_OFFSET` = 12288). -/
def FIRST_LSN : Nat := 12288

/-- `LOG_DEFAULT_ENCRYPTION_KEY`. -/
def LOG_DEFAULT_ENCRYPTION_KEY : Nat := 1

/-- `log.rs::RedoHeaderCheckpoint`. -/
structure RedoHeaderCheckpoint where
  checkpoint_lsn : Nat
  end_lsn : Nat
  checksum : Nat
deriving DecidableEq, Repr

/-- `RedoHeaderCheckpoint::default()`. -/
def RedoHeaderCheckpoint.zero : RedoHeaderCheckpoint :=
  { checkpoint_lsn := 0, end_lsn := 0, checksum := 0 }

/-- `log.rs::RedoCheckpointCoordinate` (the two-element `checkpoints`
array is embedded as two fields). -/
structure RedoCheckpointCoordinate where
  checkpoint1 : RedoHeaderCheckpoint
  checkpoint2 : RedoHeaderCheckpoint
  checkpoint_lsn : Option Nat
  checkpoint_no : Option Nat
  end_lsn : Nat
  encrypted : Bool
  version : Nat
  start_after_restore : Bool
deriving DecidableEq, Repr

/-- The three fields of the 64-byte checkpoint block at offset `pos`
(`checkpoint_lsn`, `end_lsn`, stored checksum). -/
def checkpointBlockFields (buf : List Nat) (pos : Nat) : RedoHeaderCheckpoint :=
  { checkpoint_lsn := mach_read_from_8 (buf.drop pos)
    end_lsn := mach_read_from_8 (buf.drop (pos + 8))
    checksum := mach_read_from_4 (buf.drop (pos + 60)) }

/-- The validity condition `parse_header_checkpoint` tests for a
checkpoint block (the negation of the warning condition at source lines
311–315): stored CRC over the first 60 bytes, `checkpoint_lsn ≥
first_lsn`, `end_lsn ≥ checkpoint_lsn`, and 44 zero reserved bytes. -/
def checkpointBlockValid (buf : List Nat) (first_lsn pos : Nat) : Bool :=
  ¬((checkpointBlockFields buf pos).checkpoint_lsn < first_lsn ∨
    (checkpointBlockFields buf pos).end_lsn < (checkpointBlockFields buf pos).checkpoint_lsn ∨
    (buf.drop (pos + 16)).take 44 ≠ List.replicate 44 0 ∨
    (checkpointBlockFields buf pos).checksum ≠ crc32cList ((buf.drop pos).take 60))

/-- One iteration of the checkpoint-block loop in
`Redo::parse_header_checkpoint` (`FORMAT_10_8` arm).  The validity test
only produces a warning on stderr (there is no `continue`), so the
selection `checkpoint_lsn >= checkpoint.checkpoint_lsn.unwrap_or(0)` runs
for invalid blocks too. -/
def checkpointIter (buf : List Nat) (st : RedoCheckpointCoordinate) (pos : Nat) :
    RedoCheckpointCoordinate :=
  let c := checkpointBlockFields buf pos
  let st :=
    if st.checkpoint_lsn.getD 0 ≤ c.checkpoint_lsn then
      { st with
        checkpoint_lsn := some c.checkpoint_lsn
        checkpoint_no := some (if pos = CHECKPOINT_1 then 1 else 0)
        end_lsn := c.end_lsn }
    else st
  if pos = CHECKPOINT_1 then { st with checkpoint1 := c }
  else { st with checkpoint2 := c }

/-- `Redo::parse_crypt_header`: no encryption when the key field differs
from `LOG_DEFAULT_ENCRYPTION_KEY`; otherwise the source hits a `todo!`. -/
def parse_crypt_header (hdr : List Nat) : Except ParseErr Bool :=
  if mach_read_from_4 hdr ≠ LOG_DEFAULT_ENCRYPTION_KEY then .ok false
  else .error .panic

/-- Whether a version word is one of the pre-10.8 formats recognised by
`parse_header_checkpoint` (those arms end in `todo!` / bail and are
embedded coarsely as errors; the claims only concern the current format). -/
def isLegacyFormat (version : Nat) : Bool :=
  version = 1 ∨ version = (1 : Nat) ||| FORMAT_ENCRYPTED ∨
  version = 103 ∨ version = (103 : Nat) ||| FORMAT_ENCRYPTED ∨
  version = 104 ∨ version = (104 : Nat) ||| FORMAT_ENCRYPTED ∨
  version = 0x50485953 ∨ version = (0x50485953 : Nat) ||| FORMAT_ENCRYPTED

/-- `Redo::parse_header_checkpoint`, `FORMAT_10_8` arm.  Inputs mirror the
Rust arguments: the raw file bytes, the already-parsed header (version,
`first_lsn`, and whether the creator string starts with `"Backup "`), and
the multiple-log-file count.  Every `bail!` is `invalidData`; the legacy
arms (which end in `todo!`) are `panic`. -/
def parse_header_checkpoint (buf : List Nat) (hdrVersion hdrFirstLsn : Nat)
    (creatorStartsWithBackup : Bool) (multiple_log_files : Nat) :
    Except ParseErr RedoCheckpointCoordinate :=
  let init : RedoCheckpointCoordinate :=
    { checkpoint1 := RedoHeaderCheckpoint.zero
      checkpoint2 := RedoHeaderCheckpoint.zero
      checkpoint_lsn := none
      checkpoint_no := none
      end_lsn := hdrFirstLsn
      encrypted := false
      version := hdrVersion
      start_after_restore := false }
  if hdrVersion = FORMAT_10_8 then
    if 0 < multiple_log_files then .error .invalidData
    else
      let second_hdr_u32 := mach_read_from_4 (buf.drop 4)
      if second_hdr_u32 ≠ 0 ∨ hdrFirstLsn < FIRST_LSN then .error .invalidData
      else
        let encRes : Except ParseErr RedoCheckpointCoordinate :=
          if mach_read_from_4 (buf.drop 48) = 0 then .ok init
          else
            match parse_crypt_header (buf.drop 48) with
            | .error e => .error e
            | .ok false => .error .invalidData
            | .ok true => .ok { init with version := FORMAT_ENC_10_8, encrypted := true }
        match encRes with
        | .error e => .error e
        | .ok st =>
          let st := checkpointIter buf st CHECKPOINT_1
          let st := checkpointIter buf st CHECKPOINT_2
          let st :=
            if creatorStartsWithBackup then { st with start_after_restore := true }
            else st
          match st.checkpoint_lsn with
          | none => .error .invalidData
          | some _ => .ok st
  else if isLegacyFormat hdrVersion then .error .panic
  else .error .invalidData

/-! ## `fil0fil.rs` / `buf0buf.rs`: page codec -/

/-- `fil0fil::FIL_PAGE_TYPE` (offset 24). -/
def FIL_PAGE_TYPE : Nat := 24

/-- `fil0fil::FIL_PAGE_FCRC32_CHECKSUM` (4 trailing bytes). -/
def FIL_PAGE_FCRC32_CHECKSUM : Nat := 4

/-- `fil0fil::FIL_PAGE_COMPRESS_FCRC32_MARKER` (bit 15 of the type). -/
def FIL_PAGE_COMPRESS_FCRC32_MARKER : Nat := 15

/-- `fsp0types::FSP_FLAGS_FCRC32_MASK_MARKER` (bit 4 of the flags). -/
def FSP_FLAGS_FCRC32_MASK_MARKER : Nat := 1 <<< 4

/-- `fil0fil::fil_page_get_type`. -/
def fil_page_get_type (page : List Nat) : Nat :=
  mach_read_from_2 (page.drop FIL_PAGE_TYPE)

/-- `fil0fil::full_crc32`. -/
def full_crc32 (flags : Nat) : Bool :=
  flags &&& FSP_FLAGS_FCRC32_MASK_MARKER ≠ 0

/-- `buf0buf::buf_page_full_crc32_size`: `(page_size, compressed,
corrupted)`.  The page is embedded as its raw bytes; `page.len()` is the
list length.  Note the source clears only the marker bit
(`page_type &= !(1 << 15)`) and shifts, and treats `page_type ≥ page_size`
(not just `>`) as corruption. -/
def buf_page_full_crc32_size (page : List Nat) : Nat × Bool × Bool :=
  let page_type := fil_page_get_type page
  let page_size := page.length
  if page_type &&& (1 <<< FIL_PAGE_COMPRESS_FCRC32_MARKER) = 0 then
    (page_size, false, false)
  else
    let page_type := page_type &&& 0xFFFF7FFF
    let page_type := page_type <<< 8
    if page_type < page_size then (page_type, true, false)
    else (page_size, false, true)

/-- `buf0buf::buf_page_is_corrupted` (the live `full_crc32` path; the
legacy paths are commented out in the source and fall through to
`Ok(())`).  `page` is the raw page, `flags` the tablespace flags;
`page.page_size()` equals the buffer length. -/
def buf_page_is_corrupted (flags : Nat) (page : List Nat) :
    Except ParseErr Unit :=
  if full_crc32 flags then
    let (page_size, _compressed, corrupted) := buf_page_full_crc32_size page
    if corrupted then .error .invalidData
    else
      let crc32 := mach_read_from_4 (page.drop (page_size - FIL_PAGE_FCRC32_CHECKSUM))
      if crc32 = 0 ∧ page_size = page.length ∧
          (page.take page_size).all (fun b => b = 0) then .ok ()
      else if crc32cList (page.take (page_size - FIL_PAGE_FCRC32_CHECKSUM)) ≠ crc32
      then .error .invalidData
      else .ok ()
  else .ok ()

/-! ## `ring.rs::RingWriter` -/

/-- `ring.rs::RingWriter`: mutable buffer, position, header size. -/
structure RingWriter where
  buf : List Nat
  pos : Nat
  header : Nat
deriving DecidableEq, Repr

/-- `RingWriter::advance`: the bare `self.pos += bytes` — no overflow
check.  Release builds wrap the `usize` counter modulo `2^64` (debug
builds would panic); no error is reported either way. -/
def RingWriter.advance (w : RingWriter) (bytes : Nat) : RingWriter :=
  { w with pos := (w.pos + bytes) % U64 }

/-! ## Bit-arithmetic helper lemmas -/

theorem testBit_mul_pow_add (a b i j : Nat) (h : b < 2 ^ i) :
    (a * 2 ^ i + b).testBit j = if j < i then b.testBit j else a.testBit (j - i) := by
  have := Nat.testBit_mul_pow_two_add a h j
  simpa [Nat.mul_comm] using this

/-- A shifted value `or`-ed with a small value is their sum. -/
theorem shiftLeft_lor_eq_add (c y k : Nat) (h : y < 2 ^ k) :
    (c <<< k) ||| y = c * 2 ^ k + y := by
  apply Nat.eq_of_testBit_eq
  intro j
  rw [testBit_mul_pow_add c y k j h]
  simp only [Nat.testBit_or, Nat.testBit_shiftLeft]
  by_cases hj : j < k
  · have : ¬ k ≤ j := by omega
    simp [hj, this]
  · have hk : k ≤ j := by omega
    have : y.testBit j = false := Nat.testBit_lt_two_pow (lt_of_lt_of_le h (Nat.pow_le_pow_right (by omega) hk))
    simp [hj, hk, this]

/-- Masking with a mask whose low `k` bits agree with another mask leaves
values below `2^k` unchanged between the two masks. -/
theorem land_mask_low (a m₁ m₂ k : Nat)
    (hbits : ∀ i, i < k → m₁.testBit i = m₂.testBit i) (ha : a < 2 ^ k) :
    a &&& m₁ = a &&& m₂ := by
  apply Nat.eq_of_testBit_eq
  intro j
  simp only [Nat.testBit_and]
  by_cases hj : j < k
  · rw [hbits j hj]
  · have : a.testBit j = false :=
      Nat.testBit_lt_two_pow (lt_of_lt_of_le ha (Nat.pow_le_pow_right (by omega) (by omega)))
    simp [this]

/-- `a &&& (2^k - 1) = a % 2^k`. -/
theorem land_two_pow_sub_one (a k : Nat) : a &&& (2 ^ k - 1) = a % 2 ^ k := by
  apply Nat.eq_of_testBit_eq
  intro j
  simp only [Nat.testBit_and, Nat.testBit_two_pow_sub_one, Nat.testBit_mod_two_pow]
  rw [Bool.and_comm]

/-- `crc32cList` is a 32-bit value. -/
theorem crcBit_lt (c : Nat) (h : c < 2 ^ 32) : crcBit c < 2 ^ 32 := by
  unfold crcBit
  split
  · exact Nat.xor_lt_two_pow (by omega) (by decide)
  · omega

theorem crcByte_lt (c b : Nat) (hc : c < 2 ^ 32) (hb : b < 2 ^ 32) :
    crcByte c b < 2 ^ 32 := by
  unfold crcByte
  exact crcBit_lt _ (crcBit_lt _ (crcBit_lt _ (crcBit_lt _ (crcBit_lt _ (crcBit_lt _
    (crcBit_lt _ (crcBit_lt _ (Nat.xor_lt_two_pow hc hb))))))))

theorem crc32cFold_lt (l : List Nat) :
    ∀ acc, acc < 2 ^ 32 → (∀ b ∈ l, b < 2 ^ 32) → l.foldl crcByte acc < 2 ^ 32 := by
  induction l with
  | nil => intro acc ha _; simpa using ha
  | cons x xs ih =>
    intro acc ha hmem
    simp only [List.foldl_cons]
    exact ih _ (crcByte_lt _ _ ha (hmem x (by simp))) (fun b hb => hmem b (by simp [hb]))

theorem crc32cList_lt (l : List Nat) (h : ∀ b ∈ l, b < 2 ^ 32) :
    crc32cList l < 2 ^ 32 := by
  unfold crc32cList
  exact Nat.xor_lt_two_pow (crc32cFold_lt l _ (by decide) h) (by decide)

/-! ## Claim C2: generation bit -/

/-- C2 counterexample: the claim says `get_sequence_bit` in `mtr.rs` and
`Redo::get_sequence_bit` in `log.rs` compute the same function, returning
1 iff `((lsn - first_lsn) / capacity) & 1 == 0`.  At
`(first_lsn, capacity, lsn) = (12288, 4096, 12288)` the quotient is even:
`mtr.rs` returns 1 as claimed, but `Redo::get_sequence_bit` (for a redo
file of size `12288 + 4096`) returns 0 — the two functions differ. -/
theorem c2_counterexample :
    get_sequence_bit 12288 4096 12288 = 1 ∧
    Redo.get_sequence_bit 12288 16384 12288 = 0 ∧
    Redo.get_sequence_bit 12288 16384 12288 ≠ get_sequence_bit 12288 4096 12288 := by
  decide

/-- C2 (amended): for `capacity > 0` and `lsn ≥ first_lsn`, the
generation-bit function `mtr.rs::get_sequence_bit` that checks terminator
bytes returns 1 iff `((lsn - first_lsn) / capacity) & 1 == 0`, while
`Redo::get_sequence_bit` in `log.rs` (dead code) returns the pointwise
complement `1 - get_sequence_bit`. -/
theorem c2_generation_bit (first_lsn capacity lsn : Nat)
    (hcap : 0 < capacity) (_hlsn : first_lsn ≤ lsn) :
    (get_sequence_bit first_lsn capacity lsn = 1 ↔
      ((lsn - first_lsn) / capacity) &&& 1 = 0) ∧
    Redo.get_sequence_bit first_lsn (first_lsn + capacity) lsn =
      1 - get_sequence_bit first_lsn capacity lsn := by
  unfold get_sequence_bit Redo.get_sequence_bit
  have hsz : first_lsn + capacity - first_lsn = capacity := by omega
  rw [hsz]
  constructor
  · split <;> simp_all
  · split <;> simp

/-- C2 witness. -/
theorem c2_generation_bit_witness :
    (0 : Nat) < 4096 ∧ (12288 : Nat) ≤ 12290 ∧
    ((get_sequence_bit 12288 4096 12290 = 1 ↔
       ((12290 - 12288) / 4096) &&& 1 = 0) ∧
     Redo.get_sequence_bit 12288 (12288 + 4096) 12290 =
       1 - get_sequence_bit 12288 4096 12290) :=
  ⟨by decide, by decide, c2_generation_bit 12288 4096 12290 (by decide) (by decide)⟩

/-! ## Claim C9: position-counter overflow -/

/-- C9 counterexample: the claim says every position-advancing ring
operation detects `u64` overflow and returns an error instead of wrapping.
`RingWriter::advance` at position `u64::MAX` advances by 1 without any
error and the position silently wraps to 0; a `<RingReader as Read>::read`
at position `u64::MAX` likewise succeeds and wraps the position. -/
theorem c9_counterexample :
    (RingWriter.advance ⟨[], U64 - 1, 0⟩ 1 = ⟨[], 0, 0⟩) ∧
    (RingReader.readStep ⟨[1, 2], U64 - 1, 0⟩ 1 =
      (.ok [2], ⟨[1, 2], 0, 0⟩)) := by
  constructor
  · rfl
  · rfl

/-- C9 (amended): `RingReader::advance` does detect position-counter
overflow — it returns `false` and leaves the position unchanged, and
advances exactly when no overflow occurs — but `RingWriter::advance` (and
the position update inside `<RingReader as Read>::read`) performs an
unchecked addition that wraps modulo `2^64`; no `PosOverflow`-style error
exists anywhere. -/
theorem c9_advance_overflow (r : RingReader) (w : RingWriter) (n : Nat) :
    (U64 ≤ r.pos + n → r.advance n = (r, false)) ∧
    (r.pos + n < U64 → r.advance n = ({ r with pos := r.pos + n }, true)) ∧
    (w.advance n).pos = (w.pos + n) % U64 := by
  refine ⟨fun h => ?_, fun h => ?_, rfl⟩
  · unfold RingReader.advance
    rw [if_neg (by omega)]
  · unfold RingReader.advance
    rw [if_pos h]

/-- C9 witness. -/
theorem c9_advance_overflow_witness :
    ((U64 ≤ U64 - 1 + 1 → RingReader.advance ⟨[], U64 - 1, 0⟩ 1 = (⟨[], U64 - 1, 0⟩, false)) ∧
     (U64 - 1 + 1 < U64 → RingReader.advance ⟨[], U64 - 1, 0⟩ 1 =
       ({ buf := [], pos := U64 - 1 + 1, header := 0 }, true)) ∧
     (RingWriter.advance ⟨[], 3, 0⟩ 5).pos = (3 + 5) % U64) :=
  c9_advance_overflow ⟨[], U64 - 1, 0⟩ ⟨[], 3, 0⟩ 1 |>.imp id
    (fun h => ⟨h.1, (c9_advance_overflow ⟨[], U64 - 1, 0⟩ ⟨[], 3, 0⟩ 5).2.2⟩)

/-! ## Claim C5: full-CRC32 compressed page size -/

/-- C5 counterexample: the claim says the recovered compressed size is
`(page_type & 0x00ff) << 8` and the page is corrupted iff that value
exceeds the page size.  For a 256-byte page with type `0x8001` the
claimed size is `(0x01) << 8 = 256`, which does not exceed the page size,
so the claim predicts a compressed page of size 256 — but the code marks
the page corrupted (it corrupts on `≥`, not `>`).  For a 256-byte page
with type `0x8100` the claimed size is `(0x00) << 8 = 0`, so the claim
predicts a compressed page of size 0 — but the code clears only bit 15,
computes `0x100 << 8 = 65536`, and marks the page corrupted. -/
theorem c5_counterexample :
    (fil_page_get_type (List.replicate 24 0 ++ [0x80, 0x01] ++ List.replicate 230 0) = 0x8001 ∧
     (List.replicate 24 0 ++ [0x80, 0x01] ++ List.replicate 230 0).length = 256 ∧
     ¬ ((0x8001 &&& 0x00ff) <<< 8 > 256) ∧
     buf_page_full_crc32_size (List.replicate 24 0 ++ [0x80, 0x01] ++ List.replicate 230 0) =
       (256, false, true)) ∧
    (fil_page_get_type (List.replicate 24 0 ++ [0x81, 0x00] ++ List.replicate 230 0) = 0x8100 ∧
     ¬ ((0x8100 &&& 0x00ff) <<< 8 > 256) ∧
     buf_page_full_crc32_size (List.replicate 24 0 ++ [0x81, 0x00] ++ List.replicate 230 0) =
       (256, false, true)) := by
  decide

/-- C5 (amended): for a full-CRC32 page whose type field has bit 15 set,
the recovered compressed size is `(page_type & 0x7fff) << 8` — only the
marker bit is cleared — and the page is marked corrupted iff that value
is `≥` the page size; otherwise the page size is reduced to it and the
page is marked compressed. -/
theorem c5_full_crc32_size (page : List Nat)
    (h15 : (fil_page_get_type page).testBit 15 = true)
    (hlt : fil_page_get_type page < 2 ^ 16) :
    buf_page_full_crc32_size page =
      if (fil_page_get_type page - 32768) * 256 < page.length then
        ((fil_page_get_type page - 32768) * 256, true, false)
      else (page.length, false, true) := by
  unfold buf_page_full_crc32_size
  have hge : 2 ^ 15 ≤ fil_page_get_type page := Nat.testBit_implies_ge h15
  have hand : ¬ (fil_page_get_type page &&& (1 <<< FIL_PAGE_COMPRESS_FCRC32_MARKER) = 0) := by
    have h2 : fil_page_get_type page &&& 2 ^ 15 =
        ((fil_page_get_type page).testBit 15).toNat * 2 ^ 15 :=
      Nat.and_two_pow _ 15
    rw [h15] at h2
    have : (1 <<< FIL_PAGE_COMPRESS_FCRC32_MARKER : Nat) = 2 ^ 15 := by decide
    rw [this, h2]
    simp
  have hmask : fil_page_get_type page &&& 0xFFFF7FFF = fil_page_get_type page - 32768 := by
    rw [land_mask_low (fil_page_get_type page) 0xFFFF7FFF 0x7FFF 16 (by decide) hlt]
    have : (0x7FFF : Nat) = 2 ^ 15 - 1 := by decide
    rw [this, land_two_pow_sub_one]
    omega
  rw [if_neg hand, hmask]
  have hshift : (fil_page_get_type page - 32768) <<< 8 =
      (fil_page_get_type page - 32768) * 256 := by
    rw [Nat.shiftLeft_eq]
  show (if (fil_page_get_type page - 32768) <<< 8 < page.length
        then ((fil_page_get_type page - 32768) <<< 8, true, false)
        else (page.length, false, true)) = _
  rw [hshift]

/-- C5 witness. -/
theorem c5_full_crc32_size_witness :
    ((fil_page_get_type (List.replicate 24 0 ++ [0x80, 0x10] ++ List.replicate 4070 0)).testBit 15 = true) ∧
    (fil_page_get_type (List.replicate 24 0 ++ [0x80, 0x10] ++ List.replicate 4070 0) < 2 ^ 16) ∧
    buf_page_full_crc32_size (List.replicate 24 0 ++ [0x80, 0x10] ++ List.replicate 4070 0) =
      if (fil_page_get_type (List.replicate 24 0 ++ [0x80, 0x10] ++ List.replicate 4070 0) - 32768) * 256 <
          (List.replicate 24 0 ++ [0x80, 0x10] ++ (List.replicate 4070 0 : List Nat)).length then
        ((fil_page_get_type (List.replicate 24 0 ++ [0x80, 0x10] ++ List.replicate 4070 0) - 32768) * 256, true, false)
      else ((List.replicate 24 0 ++ [0x80, 0x10] ++ (List.replicate 4070 0 : List Nat)).length, false, true) :=
  ⟨by decide, by decide,
    c5_full_crc32_size (List.replicate 24 0 ++ [0x80, 0x10] ++ List.replicate 4070 0)
      (by decide) (by decide)⟩

/-! ## Claim C7: full-CRC32 page corruption check -/

/-- C7: for a full-CRC32 page with no compressed-size marker bit,
`buf_page_is_corrupted` accepts the page iff CRC-32C over
`[0, page_size - 4)` equals the big-endian `u32` stored in the last 4
bytes, except that an all-zero page is always accepted. -/
theorem c7_page_crc_acceptance (flags : Nat) (page : List Nat)
    (hf : full_crc32 flags = true)
    (hm : fil_page_get_type page &&& (1 <<< FIL_PAGE_COMPRESS_FCRC32_MARKER) = 0) :
    (buf_page_is_corrupted flags page = .ok () ↔
      (crc32cList (page.take (page.length - 4)) =
        mach_read_from_4 (page.drop (page.length - 4)) ∨
       ∀ b ∈ page, b = 0)) := by
  have hsz : buf_page_full_crc32_size page = (page.length, false, false) := by
    unfold buf_page_full_crc32_size
    rw [if_pos hm]
  unfold buf_page_is_corrupted
  rw [hf, if_pos rfl, hsz]
  show (if mach_read_from_4 (page.drop (page.length - 4)) = 0 ∧
          page.length = page.length ∧ (page.take page.length).all (fun b => b = 0)
        then Except.ok ()
        else if crc32cList (page.take (page.length - 4)) ≠
            mach_read_from_4 (page.drop (page.length - 4))
          then Except.error ParseErr.invalidData
          else Except.ok ()) = Except.ok () ↔ _
  rw [List.take_length]
  have hall : (page.all fun b => b = 0) = true ↔ ∀ b ∈ page, b = 0 := by
    rw [List.all_eq_true]
    constructor
    · intro h b hb; exact of_decide_eq_true (h b hb)
    · intro h b hb; exact decide_eq_true (h b hb)
  by_cases hz : ∀ b ∈ page, b = 0
  · have hcrc0 : mach_read_from_4 (page.drop (page.length - 4)) = 0 := by
      have hzd : ∀ b ∈ page.drop (page.length - 4), b = 0 :=
        fun b hb => hz b (List.mem_of_mem_drop hb)
      have hget : ∀ i, (page.drop (page.length - 4)).getD i 0 = 0 := by
        intro i
        rcases Nat.lt_or_ge i (page.drop (page.length - 4)).length with h | h
        · rw [List.getD_eq_getElem _ _ h]
          exact hzd _ (List.getElem_mem h)
        · exact List.getD_eq_default _ _ h
      unfold mach_read_from_4
      rw [hget 0, hget 1, hget 2, hget 3]
      norm_num
    rw [if_pos ⟨hcrc0, rfl, hall.mpr hz⟩]
    exact ⟨fun _ => Or.inr hz, fun _ => rfl⟩
  · rw [if_neg (by
      rintro ⟨-, -, h3⟩
      exact hz (hall.mp h3))]
    constructor
    · intro h
      split at h
      · exact absurd h (by simp)
      · next heq => exact Or.inl (not_ne_iff.mp heq)
    · intro h
      rcases h with h | h
      · rw [if_neg (by omega)]
      · exact absurd h hz

/-- C7 witness: a 64-byte page of `7`s closed with its correct CRC-32C. -/
theorem c7_page_crc_acceptance_witness :
    full_crc32 0x15 = true ∧
    fil_page_get_type (List.replicate 60 7 ++ be4 (crc32cList (List.replicate 60 7))) &&&
      (1 <<< FIL_PAGE_COMPRESS_FCRC32_MARKER) = 0 ∧
    (buf_page_is_corrupted 0x15 (List.replicate 60 7 ++ be4 (crc32cList (List.replicate 60 7))) =
        .ok () ↔
      (crc32cList ((List.replicate 60 7 ++ be4 (crc32cList (List.replicate 60 7))).take
          ((List.replicate 60 7 ++ be4 (crc32cList (List.replicate 60 7))).length - 4)) =
        mach_read_from_4 ((List.replicate 60 7 ++ be4 (crc32cList (List.replicate 60 7))).drop
          ((List.replicate 60 7 ++ be4 (crc32cList (List.replicate 60 7))).length - 4)) ∨
       ∀ b ∈ List.replicate 60 7 ++ be4 (crc32cList (List.replicate 60 7)), b = 0)) :=
  ⟨by decide, by decide,
    c7_page_crc_acceptance 0x15 (List.replicate 60 7 ++ be4 (crc32cList (List.replicate 60 7)))
      (by decide) (by decide)⟩

/-! ## Claim C6: varint round-trip -/

theorem lor_mul_pow_add (c y k : Nat) (h : y < 2 ^ k) :
    (c * 2 ^ k) ||| y = c * 2 ^ k + y := by
  have := shiftLeft_lor_eq_add c y k h
  rwa [Nat.shiftLeft_eq] at this

/-- Shape of `mlog_decode_varint` on a single-byte slice. -/
theorem decode_list_one (b0 : Nat) (h : b0 < MIN_2BYTE) :
    mlog_decode_varint_list [b0] = .ok (b0, []) := by
  have e : mlog_decode_varint_list [b0] =
      (if b0 < MIN_2BYTE then .ok (b0, [])
       else if b0 < 0xc0 then .error .unexpectedEof
       else if b0 < 0xe0 then .error .unexpectedEof
       else if b0 < 0xf0 then .error .unexpectedEof
       else if b0 = 0xf0 then .error .unexpectedEof
       else .error .invalidData) := rfl
  rw [e, if_pos h]

/-- Shape of `mlog_decode_varint` on a two-byte slice. -/
theorem decode_list_two (b0 b1 : Nat) (h0 : ¬ b0 < MIN_2BYTE) (h1 : b0 < 0xc0) :
    mlog_decode_varint_list [b0, b1] =
      .ok (MIN_2BYTE + ((b0 &&& 0xFFFFFF7F) <<< 8 ||| b1), []) := by
  have e : mlog_decode_varint_list [b0, b1] =
      (if b0 < MIN_2BYTE then .ok (b0, [b1])
       else if b0 < 0xc0 then .ok (MIN_2BYTE + ((b0 &&& 0xFFFFFF7F) <<< 8 ||| b1), [])
       else if b0 < 0xe0 then .error .unexpectedEof
       else if b0 < 0xf0 then .error .unexpectedEof
       else if b0 = 0xf0 then .error .unexpectedEof
       else .error .invalidData) := rfl
  rw [e, if_neg h0, if_pos h1]

/-- Shape of `mlog_decode_varint` on a three-byte slice. -/
theorem decode_list_three (b0 b1 b2 : Nat) (h0 : ¬ b0 < MIN_2BYTE) (h1 : ¬ b0 < 0xc0)
    (h2 : b0 < 0xe0) :
    mlog_decode_varint_list [b0, b1, b2] =
      .ok (MIN_3BYTE + ((b0 &&& 0xFFFFFF3F) <<< 16 ||| b1 <<< 8 ||| b2), []) := by
  have e : mlog_decode_varint_list [b0, b1, b2] =
      (if b0 < MIN_2BYTE then .ok (b0, [b1, b2])
       else if b0 < 0xc0 then .ok (MIN_2BYTE + ((b0 &&& 0xFFFFFF7F) <<< 8 ||| b1), [b2])
       else if b0 < 0xe0 then
         .ok (MIN_3BYTE + ((b0 &&& 0xFFFFFF3F) <<< 16 ||| b1 <<< 8 ||| b2), [])
       else if b0 < 0xf0 then .error .unexpectedEof
       else if b0 = 0xf0 then .error .unexpectedEof
       else .error .invalidData) := rfl
  rw [e, if_neg h0, if_neg h1, if_pos h2]

/-- Shape of `mlog_decode_varint` on a four-byte slice. -/
theorem decode_list_four (b0 b1 b2 b3 : Nat) (h0 : ¬ b0 < MIN_2BYTE) (h1 : ¬ b0 < 0xc0)
    (h2 : ¬ b0 < 0xe0) (h3 : b0 < 0xf0) :
    mlog_decode_varint_list [b0, b1, b2, b3] =
      .ok (MIN_4BYTE + ((b0 &&& 0xFFFFFF1F) <<< 24 ||| b1 <<< 16 ||| b2 <<< 8 ||| b3), []) := by
  have e : mlog_decode_varint_list [b0, b1, b2, b3] =
      (if b0 < MIN_2BYTE then .ok (b0, [b1, b2, b3])
       else if b0 < 0xc0 then .ok (MIN_2BYTE + ((b0 &&& 0xFFFFFF7F) <<< 8 ||| b1), [b2, b3])
       else if b0 < 0xe0 then
         .ok (MIN_3BYTE + ((b0 &&& 0xFFFFFF3F) <<< 16 ||| b1 <<< 8 ||| b2), [b3])
       else if b0 < 0xf0 then
         .ok (MIN_4BYTE + ((b0 &&& 0xFFFFFF1F) <<< 24 ||| b1 <<< 16 ||| b2 <<< 8 ||| b3), [])
       else if b0 = 0xf0 then .error .unexpectedEof
       else .error .invalidData) := rfl
  rw [e, if_neg h0, if_neg h1, if_neg h2, if_pos h3]

/-- Shape of `mlog_decode_varint` on a five-byte slice led by `0xf0`. -/
theorem decode_list_five (c0 c1 c2 c3 : Nat) :
    mlog_decode_varint_list [0xf0, c0, c1, c2, c3] =
      (if c0 <<< 24 ||| c1 <<< 16 ||| c2 <<< 8 ||| c3 ≤ MLOG_DECODE_ERROR - MIN_5BYTE
       then .ok (MIN_5BYTE + (c0 <<< 24 ||| c1 <<< 16 ||| c2 <<< 8 ||| c3), [])
       else .error .invalidData) := rfl

/-- C6: for every value in the representable range (`x < u32::MAX`; the
encoder asserts `i < MLOG_DECODE_ERROR`), decoding the varint produced by
`mlog_encode_varint` returns `x` with no bytes left over, and the encoded
length is the shortest form: 1, 2, 3, 4 or 5 bytes according to the
`MIN_2BYTE`…`MIN_5BYTE` thresholds. -/
theorem c6_varint_roundtrip (x : Nat) (hx : x < MLOG_DECODE_ERROR) :
    ∃ l, mlog_encode_varint x = .ok l ∧
      mlog_decode_varint_list l = .ok (x, []) ∧
      l.length = (if x < MIN_2BYTE then 1 else if x < MIN_3BYTE then 2
        else if x < MIN_4BYTE then 3 else if x < MIN_5BYTE then 4 else 5) := by
  have hM2 : MIN_2BYTE = 128 := by decide
  have hM3 : MIN_3BYTE = 16512 := by decide
  have hM4 : MIN_4BYTE = 2113664 := by decide
  have hM5 : MIN_5BYTE = 270549120 := by decide
  have hME : MLOG_DECODE_ERROR = 4294967295 := by decide
  by_cases h1 : x < MIN_2BYTE
  · refine ⟨[x % 256], ?_, ?_, ?_⟩
    · unfold mlog_encode_varint
      rw [if_pos h1]
    · have hxm : x % 256 = x := Nat.mod_eq_of_lt (by omega)
      rw [hxm, decode_list_one x h1]
    · simp [h1]
  by_cases h2 : x < MIN_3BYTE
  · -- two-byte form
    have hqm : ((x - MIN_2BYTE) >>> 8) % 256 = (x - MIN_2BYTE) / 256 := by
      rw [Nat.shiftRight_eq_div_pow]
      omega
    have hb0 : (0x80 : Nat) ||| ((x - MIN_2BYTE) >>> 8) % 256 =
        128 + (x - MIN_2BYTE) / 256 := by
      rw [hqm]
      have h := lor_mul_pow_add 1 ((x - MIN_2BYTE) / 256) 7 (by omega)
      norm_num at h
      exact h
    refine ⟨[0x80 ||| ((x - MIN_2BYTE) >>> 8) % 256, (x - MIN_2BYTE) % 256], ?_, ?_, ?_⟩
    · unfold mlog_encode_varint
      rw [if_neg h1, if_pos h2]
    · rw [hb0]
      rw [decode_list_two _ _ (by omega) (by omega)]
      have hmask : (128 + (x - MIN_2BYTE) / 256) &&& 0xFFFFFF7F =
          (x - MIN_2BYTE) / 256 := by
        rw [land_mask_low (128 + (x - MIN_2BYTE) / 256) 0xFFFFFF7F 127 8
            (by decide) (by omega)]
        have h := land_two_pow_sub_one (128 + (x - MIN_2BYTE) / 256) 7
        norm_num at h
        rw [h]
        omega
      rw [hmask, shiftLeft_lor_eq_add _ _ 8 (by omega)]
      have hfin : MIN_2BYTE + ((x - MIN_2BYTE) / 256 * 2 ^ 8 + (x - MIN_2BYTE) % 256) = x := by
        omega
      rw [hfin]
    · simp [h1, h2]
  by_cases h3 : x < MIN_4BYTE
  · -- three-byte form
    have hqm : ((x - MIN_3BYTE) >>> 16) % 256 = (x - MIN_3BYTE) / 65536 := by
      rw [Nat.shiftRight_eq_div_pow]
      omega
    have hq8 : ((x - MIN_3BYTE) >>> 8) % 256 = (x - MIN_3BYTE) / 256 % 256 := by
      rw [Nat.shiftRight_eq_div_pow]
    have hb0 : (0xc0 : Nat) ||| ((x - MIN_3BYTE) >>> 16) % 256 =
        192 + (x - MIN_3BYTE) / 65536 := by
      rw [hqm]
      have h := lor_mul_pow_add 3 ((x - MIN_3BYTE) / 65536) 6 (by omega)
      norm_num at h
      exact h
    refine ⟨[0xc0 ||| ((x - MIN_3BYTE) >>> 16) % 256, ((x - MIN_3BYTE) >>> 8) % 256,
        (x - MIN_3BYTE) % 256], ?_, ?_, ?_⟩
    · unfold mlog_encode_varint
      rw [if_neg h1, if_neg h2, if_pos h3]
    · rw [hb0, hq8]
      rw [decode_list_three _ _ _ (by omega) (by omega) (by omega)]
      have hmask : (192 + (x - MIN_3BYTE) / 65536) &&& 0xFFFFFF3F =
          (x - MIN_3BYTE) / 65536 := by
        rw [land_mask_low (192 + (x - MIN_3BYTE) / 65536) 0xFFFFFF3F 63 8
            (by decide) (by omega)]
        have h := land_two_pow_sub_one (192 + (x - MIN_3BYTE) / 65536) 6
        norm_num at h
        rw [h]
        omega
      rw [hmask]
      rw [Nat.shiftLeft_eq ((x - MIN_3BYTE) / 256 % 256) 8]
      rw [shiftLeft_lor_eq_add ((x - MIN_3BYTE) / 65536) _ 16 (by
        have hb : (x - MIN_3BYTE) / 256 % 256 < 256 := Nat.mod_lt _ (by norm_num)
        omega)]
      rw [show (x - MIN_3BYTE) / 65536 * 2 ^ 16 + (x - MIN_3BYTE) / 256 % 256 * 2 ^ 8 =
          ((x - MIN_3BYTE) / 65536 * 256 + (x - MIN_3BYTE) / 256 % 256) * 2 ^ 8 from (by ring)]
      rw [lor_mul_pow_add _ _ 8 (by omega)]
      have hfin : MIN_3BYTE +
          (((x - MIN_3BYTE) / 65536 * 256 + (x - MIN_3BYTE) / 256 % 256) * 2 ^ 8 +
            (x - MIN_3BYTE) % 256) = x := by
        omega
      rw [hfin]
    · simp [h1, h2, h3]
  by_cases h4 : x < MIN_5BYTE
  · -- four-byte form
    have hqm : ((x - MIN_4BYTE) >>> 24) % 256 = (x - MIN_4BYTE) / 16777216 := by
      rw [Nat.shiftRight_eq_div_pow]
      omega
    have hq16 : ((x - MIN_4BYTE) >>> 16) % 256 = (x - MIN_4BYTE) / 65536 % 256 := by
      rw [Nat.shiftRight_eq_div_pow]
    have hq8 : ((x - MIN_4BYTE) >>> 8) % 256 = (x - MIN_4BYTE) / 256 % 256 := by
      rw [Nat.shiftRight_eq_div_pow]
    have hb0 : (0xe0 : Nat) ||| ((x - MIN_4BYTE) >>> 24) % 256 =
        224 + (x - MIN_4BYTE) / 16777216 := by
      rw [hqm]
      have h := lor_mul_pow_add 7 ((x - MIN_4BYTE) / 16777216) 5 (by omega)
      norm_num at h
      exact h
    refine ⟨[0xe0 ||| ((x - MIN_4BYTE) >>> 24) % 256, ((x - MIN_4BYTE) >>> 16) % 256,
        ((x - MIN_4BYTE) >>> 8) % 256, (x - MIN_4BYTE) % 256], ?_, ?_, ?_⟩
    · unfold mlog_encode_varint
      rw [if_neg h1, if_neg h2, if_neg h3, if_pos h4]
    · rw [hb0, hq16, hq8]
      rw [decode_list_four _ _ _ _ (by omega) (by omega) (by omega) (by omega)]
      have hmask : (224 + (x - MIN_4BYTE) / 16777216) &&& 0xFFFFFF1F =
          (x - MIN_4BYTE) / 16777216 := by
        rw [land_mask_low (224 + (x - MIN_4BYTE) / 16777216) 0xFFFFFF1F 31 8
            (by decide) (by omega)]
        have h := land_two_pow_sub_one (224 + (x - MIN_4BYTE) / 16777216) 5
        norm_num at h
        rw [h]
        omega
      rw [hmask]
      rw [Nat.shiftLeft_eq ((x - MIN_4BYTE) / 65536 % 256) 16]
      rw [Nat.shiftLeft_eq ((x - MIN_4BYTE) / 256 % 256) 8]
      rw [shiftLeft_lor_eq_add ((x - MIN_4BYTE) / 16777216) _ 24 (by
        have hb : (x - MIN_4BYTE) / 65536 % 256 < 256 := Nat.mod_lt _ (by norm_num)
        omega)]
      rw [show (x - MIN_4BYTE) / 16777216 * 2 ^ 24 + (x - MIN_4BYTE) / 65536 % 256 * 2 ^ 16 =
          ((x - MIN_4BYTE) / 16777216 * 256 + (x - MIN_4BYTE) / 65536 % 256) * 2 ^ 16
          from (by ring)]
      rw [lor_mul_pow_add _ _ 16 (by
        have hb : (x - MIN_4BYTE) / 256 % 256 < 256 := Nat.mod_lt _ (by norm_num)
        omega)]
      rw [show ((x - MIN_4BYTE) / 16777216 * 256 + (x - MIN_4BYTE) / 65536 % 256) * 2 ^ 16 +
          (x - MIN_4BYTE) / 256 % 256 * 2 ^ 8 =
          (((x - MIN_4BYTE) / 16777216 * 256 + (x - MIN_4BYTE) / 65536 % 256) * 256 +
            (x - MIN_4BYTE) / 256 % 256) * 2 ^ 8 from (by ring)]
      rw [lor_mul_pow_add _ _ 8 (by omega)]
      have hfin : MIN_4BYTE +
          ((((x - MIN_4BYTE) / 16777216 * 256 + (x - MIN_4BYTE) / 65536 % 256) * 256 +
            (x - MIN_4BYTE) / 256 % 256) * 2 ^ 8 + (x - MIN_4BYTE) % 256) = x := by
        omega
      rw [hfin]
    · simp [h1, h2, h3, h4]
  · -- five-byte form
    have hqm : ((x - MIN_5BYTE) >>> 24) % 256 = (x - MIN_5BYTE) / 16777216 := by
      rw [Nat.shiftRight_eq_div_pow]
      omega
    have hq16 : ((x - MIN_5BYTE) >>> 16) % 256 = (x - MIN_5BYTE) / 65536 % 256 := by
      rw [Nat.shiftRight_eq_div_pow]
    have hq8 : ((x - MIN_5BYTE) >>> 8) % 256 = (x - MIN_5BYTE) / 256 % 256 := by
      rw [Nat.shiftRight_eq_div_pow]
    refine ⟨[0xf0, ((x - MIN_5BYTE) >>> 24) % 256, ((x - MIN_5BYTE) >>> 16) % 256,
        ((x - MIN_5BYTE) >>> 8) % 256, (x - MIN_5BYTE) % 256], ?_, ?_, ?_⟩
    · unfold mlog_encode_varint
      rw [if_neg h1, if_neg h2, if_neg h3, if_neg h4, if_pos hx]
    · rw [hqm, hq16, hq8]
      rw [decode_list_five _ _ _ _]
      rw [Nat.shiftLeft_eq ((x - MIN_5BYTE) / 65536 % 256) 16]
      rw [Nat.shiftLeft_eq ((x - MIN_5BYTE) / 256 % 256) 8]
      rw [shiftLeft_lor_eq_add ((x - MIN_5BYTE) / 16777216) _ 24 (by
        have hb : (x - MIN_5BYTE) / 65536 % 256 < 256 := Nat.mod_lt _ (by norm_num)
        omega)]
      rw [show (x - MIN_5BYTE) / 16777216 * 2 ^ 24 + (x - MIN_5BYTE) / 65536 % 256 * 2 ^ 16 =
          ((x - MIN_5BYTE) / 16777216 * 256 + (x - MIN_5BYTE) / 65536 % 256) * 2 ^ 16
          from (by ring)]
      rw [lor_mul_pow_add _ _ 16 (by
        have hb : (x - MIN_5BYTE) / 256 % 256 < 256 := Nat.mod_lt _ (by norm_num)
        omega)]
      rw [show ((x - MIN_5BYTE) / 16777216 * 256 + (x - MIN_5BYTE) / 65536 % 256) * 2 ^ 16 +
          (x - MIN_5BYTE) / 256 % 256 * 2 ^ 8 =
          (((x - MIN_5BYTE) / 16777216 * 256 + (x - MIN_5BYTE) / 65536 % 256) * 256 +
            (x - MIN_5BYTE) / 256 % 256) * 2 ^ 8 from (by ring)]
      rw [lor_mul_pow_add _ _ 8 (by omega)]
      rw [if_pos (by omega)]
      have hfin : MIN_5BYTE +
          ((((x - MIN_5BYTE) / 16777216 * 256 + (x - MIN_5BYTE) / 65536 % 256) * 256 +
            (x - MIN_5BYTE) / 256 % 256) * 2 ^ 8 + (x - MIN_5BYTE) % 256) = x := by
        omega
      rw [hfin]
    · simp [h1, h2, h3, h4]

/-- C6 witness: the round-trip instantiated at `x = 300000`. -/
theorem c6_varint_roundtrip_witness :
    (300000 : Nat) < MLOG_DECODE_ERROR ∧
    (∃ l, mlog_encode_varint 300000 = .ok l ∧
      mlog_decode_varint_list l = .ok (300000, []) ∧
      l.length = (if (300000 : Nat) < MIN_2BYTE then 1 else if (300000 : Nat) < MIN_3BYTE then 2
        else if (300000 : Nat) < MIN_4BYTE then 3 else if (300000 : Nat) < MIN_5BYTE then 4
        else 5)) :=
  ⟨by decide, c6_varint_roundtrip 300000 (by decide)⟩

/-! ## Claim C4: checkpoint-block validation and selection -/

theorem getD_replicate_zero (n i : Nat) : (List.replicate n (0:Nat)).getD i 0 = 0 := by
  rcases Nat.lt_or_ge i n with h | h
  · rw [List.getD_eq_getElem _ _ (by simpa using h)]
    simp
  · exact List.getD_eq_default _ _ (by simpa using h)

theorem mach_read_from_4_replicate (m : Nat) :
    mach_read_from_4 (List.replicate m 0) = 0 := by
  unfold mach_read_from_4
  rw [getD_replicate_zero, getD_replicate_zero, getD_replicate_zero, getD_replicate_zero]
  norm_num

theorem mach_read_from_8_replicate (m : Nat) :
    mach_read_from_8 (List.replicate m 0) = 0 := by
  unfold mach_read_from_8
  rw [getD_replicate_zero, getD_replicate_zero, getD_replicate_zero, getD_replicate_zero,
    getD_replicate_zero, getD_replicate_zero, getD_replicate_zero, getD_replicate_zero]
  norm_num

theorem checkpointBlockFields_zero (pos : Nat) :
    checkpointBlockFields (List.replicate 8256 0) pos =
      { checkpoint_lsn := 0, end_lsn := 0, checksum := 0 } := by
  unfold checkpointBlockFields
  rw [List.drop_replicate, List.drop_replicate, List.drop_replicate,
    mach_read_from_8_replicate, mach_read_from_8_replicate, mach_read_from_4_replicate]

theorem checkpointIter_zero_one :
    checkpointIter (List.replicate 8256 0)
      { checkpoint1 := RedoHeaderCheckpoint.zero
        checkpoint2 := RedoHeaderCheckpoint.zero
        checkpoint_lsn := none
        checkpoint_no := none
        end_lsn := 12288
        encrypted := false
        version := FORMAT_10_8
        start_after_restore := false }
      CHECKPOINT_1 =
      { checkpoint1 := { checkpoint_lsn := 0, end_lsn := 0, checksum := 0 }
        checkpoint2 := RedoHeaderCheckpoint.zero
        checkpoint_lsn := some 0
        checkpoint_no := some 1
        end_lsn := 0
        encrypted := false
        version := FORMAT_10_8
        start_after_restore := false } := by
  unfold checkpointIter
  rw [checkpointBlockFields_zero]
  rfl

theorem checkpointIter_zero_two :
    checkpointIter (List.replicate 8256 0)
      { checkpoint1 := { checkpoint_lsn := 0, end_lsn := 0, checksum := 0 }
        checkpoint2 := RedoHeaderCheckpoint.zero
        checkpoint_lsn := some 0
        checkpoint_no := some 1
        end_lsn := 0
        encrypted := false
        version := FORMAT_10_8
        start_after_restore := false }
      CHECKPOINT_2 =
      { checkpoint1 := { checkpoint_lsn := 0, end_lsn := 0, checksum := 0 }
        checkpoint2 := { checkpoint_lsn := 0, end_lsn := 0, checksum := 0 }
        checkpoint_lsn := some 0
        checkpoint_no := some 0
        end_lsn := 0
        encrypted := false
        version := FORMAT_10_8
        start_after_restore := false } := by
  unfold checkpointIter
  rw [checkpointBlockFields_zero]
  rfl

/-- C4: the claim says an invalid checkpoint block is never selected as
the live checkpoint and that two invalid blocks make open fail with
`NoValidCheckpoint`.  The code only prints a warning for an invalid block
— there is no `continue` — and the selection condition
`checkpoint_lsn >= checkpoint.checkpoint_lsn.unwrap_or(0)` always holds on
the first iteration, so `parse_header_checkpoint` never reports
`NoValidCheckpoint` in the `FORMAT_10_8` path.  Concretely, on a file
whose checkpoint area is all zero both blocks fail validation (their
stored checksum 0 differs from the CRC of 60 zero bytes, and
`checkpoint_lsn = 0 < first_lsn`), yet parsing succeeds and selects the
invalid second block with `checkpoint_lsn = Some(0)`. -/
theorem c4_invalid_checkpoint_selected :
    checkpointBlockValid (List.replicate 8256 0) 12288 CHECKPOINT_1 = false ∧
    checkpointBlockValid (List.replicate 8256 0) 12288 CHECKPOINT_2 = false ∧
    parse_header_checkpoint (List.replicate 8256 0) FORMAT_10_8 12288 false 0 =
      .ok { checkpoint1 := { checkpoint_lsn := 0, end_lsn := 0, checksum := 0 }
            checkpoint2 := { checkpoint_lsn := 0, end_lsn := 0, checksum := 0 }
            checkpoint_lsn := some 0
            checkpoint_no := some 0
            end_lsn := 0
            encrypted := false
            version := FORMAT_10_8
            start_after_restore := false } := by
  refine ⟨?_, ?_, ?_⟩
  · unfold checkpointBlockValid
    rw [checkpointBlockFields_zero]
    exact decide_eq_false (fun h => h (Or.inl (by norm_num)))
  · unfold checkpointBlockValid
    rw [checkpointBlockFields_zero]
    exact decide_eq_false (fun h => h (Or.inl (by norm_num)))
  · unfold parse_header_checkpoint
    rw [if_pos rfl, if_neg (by omega)]
    have e4 : mach_read_from_4 ((List.replicate 8256 (0:Nat)).drop 4) = 0 := by
      rw [List.drop_replicate, mach_read_from_4_replicate]
    have e48 : mach_read_from_4 ((List.replicate 8256 (0:Nat)).drop 48) = 0 := by
      rw [List.drop_replicate, mach_read_from_4_replicate]
    rw [if_neg (by
      rw [e4]
      rintro (h | h)
      · exact h rfl
      · revert h
        decide)]
    simp only [e48, reduceIte, checkpointIter_zero_one, checkpointIter_zero_two,
      Bool.false_eq_true]

/-! ## Pointwise characterisation of the ring operations

These lemmas describe the reader operations on a well-formed ring state
(`header < len`, cursor past the header, request within the capacity, no
`usize` overflow) in terms of `RingReader.byteAt`. -/

theorem slice_eq_map_getD (l : List Nat) (a b : Nat) (hab : a + b ≤ l.length) :
    (l.drop a).take b = (List.range b).map (fun i => l.getD (a + i) 0) := by
  apply List.ext_getElem
  · simp
    omega
  · intro i h1 h2
    simp only [List.getElem_take, List.getElem_drop, List.getElem_map, List.getElem_range]
    rw [List.getD_eq_getElem _ _ (by simp at h1 ⊢; omega)]

theorem RingReader.ensure_ok (r : RingReader) (t : Nat) (hlen : t ≤ r.buf.length)
    (hov : r.pos + t < U64) : r.ensure t = .ok () := by
  unfold RingReader.ensure
  rw [if_neg (by omega), if_neg (by omega)]

theorem RingReader.offsetE_ok (r : RingReader) (p : Nat) (hH : r.header < r.buf.length) :
    r.offsetE p = .ok (r.posToOffset p) := by
  unfold RingReader.offsetE RingReader.posToOffset pos_to_offset
  by_cases hp : p < r.header
  · rw [if_pos hp, if_pos hp]
  · rw [if_neg hp, if_neg (by omega), if_neg hp]

theorem RingReader.posToOffset_ge (r : RingReader) (p : Nat) (hp : r.header ≤ p) :
    r.posToOffset p = r.header + (p - r.header) % (r.buf.length - r.header) := by
  unfold RingReader.posToOffset pos_to_offset
  rw [if_neg (by omega)]

theorem RingReader.advance_ok (r : RingReader) (n : Nat) (h : r.pos + n < U64) :
    r.advance n = ({ r with pos := r.pos + n }, true) := by
  unfold RingReader.advance
  rw [if_pos h]

theorem RingReader.addPos_eq (r : RingReader) (n : Nat) (h : r.pos + n < U64) :
    r.addPos n = { r with pos := r.pos + n } := by
  unfold RingReader.addPos
  rw [r.advance_ok n h]

theorem RingReader.peek1_eq (r : RingReader) (hH : r.header < r.buf.length)
    (hov : r.pos + 1 < U64) : r.peek1 = .ok (r.byteAt r.pos) := by
  unfold RingReader.peek1
  rw [r.ensure_ok 1 (by omega) hov, r.offsetE_ok r.pos hH]
  rfl

theorem RingReader.readStep_eq (r : RingReader) (n : Nat) (hH : r.header < r.buf.length)
    (hpos : r.header ≤ r.pos) (hn : n ≤ r.capacity) (hov : r.pos + n < U64) :
    r.readStep n = (.ok ((List.range n).map (fun i => r.byteAt (r.pos + i))),
      { r with pos := r.pos + n }) := by
  have hC : 0 < r.buf.length - r.header := by
    unfold RingReader.capacity at hn
    omega
  have hcap : r.capacity = r.buf.length - r.header := rfl
  rw [hcap] at hn
  have hsC : (r.pos - r.header) % (r.buf.length - r.header) < r.buf.length - r.header :=
    Nat.mod_lt _ hC
  have hoff : r.posToOffset r.pos =
      r.header + (r.pos - r.header) % (r.buf.length - r.header) :=
    r.posToOffset_ge r.pos hpos
  have hbyte : ∀ i, r.byteAt (r.pos + i) =
      r.buf.getD (r.header +
        ((r.pos - r.header) % (r.buf.length - r.header) + i) %
          (r.buf.length - r.header)) 0 := by
    intro i
    unfold RingReader.byteAt
    rw [r.posToOffset_ge (r.pos + i) (by omega)]
    have he : ((r.pos - r.header) % (r.buf.length - r.header) + i) %
        (r.buf.length - r.header) = (r.pos + i - r.header) % (r.buf.length - r.header) := by
      rw [Nat.mod_add_mod]
      congr 1
      omega
    rw [he]
  set B := r.buf.length with hB
  set H := r.header with hHdef
  set s := (r.pos - H) % (B - H) with hs
  have hreduce : r.readStep n =
      (if min (B - (H + s)) n = n then
        ((.ok ((r.buf.drop (H + s)).take (min (B - (H + s)) n)) : Except ParseErr (List Nat)),
          { r with pos := (r.pos + min (B - (H + s)) n) % U64 })
      else if B < H + min (H + s) (n - min (B - (H + s)) n) then
        (.error .panic, { r with pos := (r.pos + min (B - (H + s)) n) % U64 })
      else
        (.ok ((r.buf.drop (H + s)).take (min (B - (H + s)) n) ++
            (r.buf.drop H).take (min (H + s) (n - min (B - (H + s)) n))),
          { r with pos := ((r.pos + min (B - (H + s)) n) % U64 +
              min (H + s) (n - min (B - (H + s)) n)) % U64 })) := by
    unfold RingReader.readStep
    rw [r.offsetE_ok r.pos hH, hoff]
  rw [hreduce]
  by_cases hA : n ≤ (B - H) - s
  · have hmin : min (B - (H + s)) n = n := by omega
    rw [if_pos hmin, hmin]
    have hposmod : (r.pos + n) % U64 = r.pos + n := Nat.mod_eq_of_lt hov
    rw [hposmod]
    have hslice : (r.buf.drop (H + s)).take n =
        (List.range n).map (fun i => r.buf.getD (H + s + i) 0) := by
      apply slice_eq_map_getD
      omega
    rw [hslice]
    have hmaps : (List.range n).map (fun i => r.buf.getD (H + s + i) 0) =
        (List.range n).map (fun i => r.byteAt (r.pos + i)) := by
      apply List.map_congr_left
      intro i hi
      rw [List.mem_range] at hi
      rw [hbyte i, Nat.mod_eq_of_lt (by omega), Nat.add_assoc]
    rw [hmaps]
  · have hk1 : min (B - (H + s)) n = (B - H) - s := by omega
    rw [hk1, if_neg (by omega)]
    have hk2 : min (H + s) (n - ((B - H) - s)) = n - ((B - H) - s) := by omega
    rw [hk2, if_neg (by omega)]
    have hmod1 : (r.pos + ((B - H) - s)) % U64 = r.pos + ((B - H) - s) :=
      Nat.mod_eq_of_lt (by omega)
    rw [hmod1]
    have hmod2 : (r.pos + ((B - H) - s) + (n - ((B - H) - s))) % U64 = r.pos + n := by
      rw [Nat.mod_eq_of_lt (by omega)]
      omega
    rw [hmod2]
    have hslice1 : (r.buf.drop (H + s)).take ((B - H) - s) =
        (List.range ((B - H) - s)).map (fun i => r.buf.getD (H + s + i) 0) := by
      apply slice_eq_map_getD
      omega
    have hslice2 : (r.buf.drop H).take (n - ((B - H) - s)) =
        (List.range (n - ((B - H) - s))).map (fun i => r.buf.getD (H + i) 0) := by
      apply slice_eq_map_getD
      omega
    rw [hslice1, hslice2]
    have hsplit : (List.range n).map (fun i => r.byteAt (r.pos + i)) =
        (List.range ((B - H) - s)).map (fun i => r.byteAt (r.pos + i)) ++
        (List.range (n - ((B - H) - s))).map (fun j => r.byteAt (r.pos + (((B - H) - s) + j))) := by
      conv_lhs => rw [show n = ((B - H) - s) + (n - ((B - H) - s)) by omega]
      rw [List.range_add, List.map_append, List.map_map]
      congr 1
    rw [hsplit]
    have hm1 : (List.range ((B - H) - s)).map (fun i => r.buf.getD (H + s + i) 0) =
        (List.range ((B - H) - s)).map (fun i => r.byteAt (r.pos + i)) := by
      apply List.map_congr_left
      intro i hi
      rw [List.mem_range] at hi
      rw [hbyte i, Nat.mod_eq_of_lt (by omega), Nat.add_assoc]
    have hm2 : (List.range (n - ((B - H) - s))).map (fun i => r.buf.getD (H + i) 0) =
        (List.range (n - ((B - H) - s))).map
          (fun j => r.byteAt (r.pos + (((B - H) - s) + j))) := by
      apply List.map_congr_left
      intro j hj
      rw [List.mem_range] at hj
      rw [hbyte (((B - H) - s) + j)]
      rw [show s + (((B - H) - s) + j) = (B - H) + j by omega, Nat.add_mod_left,
        Nat.mod_eq_of_lt (by omega)]
    rw [hm1, hm2]

theorem RingReader.readExact_eq (r : RingReader) (n : Nat) (hH : r.header < r.buf.length)
    (hpos : r.header ≤ r.pos) (hn : n ≤ r.capacity) (hov : r.pos + n < U64) :
    r.readExact n = (.ok ((List.range n).map (fun i => r.byteAt (r.pos + i))),
      { r with pos := r.pos + n }) := by
  cases n with
  | zero => rfl
  | succ m =>
    have hstep := r.readStep_eq (m + 1) hH hpos hn hov
    have h1 : r.readExact (m + 1) =
        (match r.readStep (m + 1) with
        | (.error e, r1) => ((.error e : Except ParseErr (List Nat)), r1)
        | (.ok bs, r1) =>
          if bs.length = 0 then (.error .unexpectedEof, r1)
          else if m + 1 ≤ bs.length then (.ok bs, r1)
          else match RingReader.readExactCore m r1 (m + 1 - bs.length) with
            | (.error e, r2) => (.error e, r2)
            | (.ok rest, r2) => (.ok (bs ++ rest), r2)) := rfl
    rw [h1]
    split
    · next e r1 heq =>
      rw [hstep] at heq
      simp at heq
    · next bs r1 heq =>
      rw [hstep] at heq
      injection heq with hfst hsnd
      injection hfst with hbs
      subst hbs
      subst hsnd
      simp only [List.length_map, List.length_range]
      rw [if_neg (by omega), if_pos (by omega)]

theorem RingReader.readU8_eq (r : RingReader) (hH : r.header < r.buf.length)
    (hpos : r.header ≤ r.pos) (hc : 1 ≤ r.capacity) (hov : r.pos + 1 < U64) :
    r.readU8 = .ok (r.byteAt r.pos, { r with pos := r.pos + 1 }) := by
  unfold RingReader.readU8
  rw [r.readExact_eq 1 hH hpos hc hov]
  rfl

theorem RingReader.read1_eq (r : RingReader) (hH : r.header < r.buf.length)
    (hpos : r.header ≤ r.pos) (hc : 1 ≤ r.capacity) (hov : r.pos + 1 < U64) :
    r.read1 = (.ok (r.byteAt r.pos), { r with pos := r.pos + 1 }) := by
  unfold RingReader.read1
  rw [r.ensure_ok 1 (by unfold RingReader.capacity at hc; omega) hov,
    r.readExact_eq 1 hH hpos hc hov]
  rfl

theorem RingReader.read4_eq (r : RingReader) (hH : r.header < r.buf.length)
    (hpos : r.header ≤ r.pos) (hc : 4 ≤ r.capacity) (hov : r.pos + 4 < U64) :
    r.read4 = (.ok (mach_read_from_4
        ((List.range 4).map (fun i => r.byteAt (r.pos + i)))),
      { r with pos := r.pos + 4 }) := by
  unfold RingReader.read4
  rw [r.ensure_ok 4 (by unfold RingReader.capacity at hc; omega) hov,
    r.readExact_eq 4 hH hpos hc hov]

theorem RingReader.read8_eq (r : RingReader) (hH : r.header < r.buf.length)
    (hpos : r.header ≤ r.pos) (hc : 8 ≤ r.capacity) (hov : r.pos + 8 < U64) :
    r.read8 = (.ok (mach_read_from_8
        ((List.range 8).map (fun i => r.byteAt (r.pos + i)))),
      { r with pos := r.pos + 8 }) := by
  unfold RingReader.read8
  rw [r.ensure_ok 8 (by unfold RingReader.capacity at hc; omega) hov,
    r.readExact_eq 8 hH hpos hc hov]

theorem RingReader.blockBytes_eq (r : RingReader) (n : Nat) (hH : r.header < r.buf.length)
    (hpos : r.header ≤ r.pos) (h0 : 0 < n) (hn : n ≤ r.capacity) (hov : r.pos + n < U64) :
    r.blockBytes n = .ok ((List.range n).map (fun i => r.byteAt (r.pos + i))) := by
  have hC : 0 < r.buf.length - r.header := by
    unfold RingReader.capacity at hn
    omega
  have hcap : r.capacity = r.buf.length - r.header := rfl
  rw [hcap] at hn
  have hsC : (r.pos - r.header) % (r.buf.length - r.header) < r.buf.length - r.header :=
    Nat.mod_lt _ hC
  have hbyte : ∀ i, r.byteAt (r.pos + i) =
      r.buf.getD (r.header +
        ((r.pos - r.header) % (r.buf.length - r.header) + i) %
          (r.buf.length - r.header)) 0 := by
    intro i
    unfold RingReader.byteAt
    rw [r.posToOffset_ge (r.pos + i) (by omega)]
    have he : ((r.pos - r.header) % (r.buf.length - r.header) + i) %
        (r.buf.length - r.header) = (r.pos + i - r.header) % (r.buf.length - r.header) := by
      rw [Nat.mod_add_mod]
      congr 1
      omega
    rw [he]
  set B := r.buf.length with hB
  set H := r.header with hHdef
  set s := (r.pos - H) % (B - H) with hs
  have hstop : (r.pos + n - H) % (B - H) = (s + n) % (B - H) := by
    rw [hs, Nat.mod_add_mod]
    congr 1
    omega
  have hred : r.blockBytes n =
      (if H + s < H + (s + n) % (B - H) then
        if H + (s + n) % (B - H) - (H + s) = n then
          .ok ((r.buf.drop (H + s)).take (H + (s + n) % (B - H) - (H + s)))
        else .error .panic
      else
        if n < B - (H + s) then .error .panic
        else if H + (s + n) % (B - H) < H ∨
            n - (B - (H + s)) ≠ H + (s + n) % (B - H) - H then .error .panic
        else .ok (r.buf.drop (H + s) ++
          (r.buf.drop H).take (H + (s + n) % (B - H) - H))) := by
    unfold RingReader.blockBytes
    rw [r.offsetE_ok r.pos hH, r.offsetE_ok ((r.pos + n) % U64) hH,
      Nat.mod_eq_of_lt hov, r.posToOffset_ge r.pos hpos,
      r.posToOffset_ge (r.pos + n) (by omega), hstop]
  rw [hred]
  by_cases hA : s + n < B - H
  · rw [Nat.mod_eq_of_lt hA]
    rw [if_pos (by omega), if_pos (by omega)]
    have hslice : (r.buf.drop (H + s)).take (H + (s + n) - (H + s)) =
        (List.range n).map (fun i => r.buf.getD (H + s + i) 0) := by
      rw [show H + (s + n) - (H + s) = n by omega]
      apply slice_eq_map_getD
      omega
    rw [hslice]
    congr 1
    apply List.map_congr_left
    intro i hi
    rw [List.mem_range] at hi
    rw [hbyte i, Nat.mod_eq_of_lt (by omega), Nat.add_assoc]
  · have hmod : (s + n) % (B - H) = s + n - (B - H) := by
      rw [Nat.mod_eq_sub_mod (by omega), Nat.mod_eq_of_lt (by omega)]
    rw [hmod]
    rw [if_neg (by omega), if_neg (by omega), if_neg (by push_neg; omega)]
    have hdrop : r.buf.drop (H + s) =
        (List.range ((B - H) - s)).map (fun i => r.buf.getD (H + s + i) 0) := by
      have h1 : r.buf.drop (H + s) = (r.buf.drop (H + s)).take ((B - H) - s) := by
        rw [List.take_of_length_le]
        rw [List.length_drop]
        omega
      rw [h1]
      apply slice_eq_map_getD
      omega
    have hslice2 : (r.buf.drop H).take (H + (s + n - (B - H)) - H) =
        (List.range (s + n - (B - H))).map (fun i => r.buf.getD (H + i) 0) := by
      rw [show H + (s + n - (B - H)) - H = s + n - (B - H) by omega]
      apply slice_eq_map_getD
      omega
    rw [hdrop, hslice2]
    have hsplit : (List.range n).map (fun i => r.byteAt (r.pos + i)) =
        (List.range ((B - H) - s)).map (fun i => r.byteAt (r.pos + i)) ++
        (List.range (n - ((B - H) - s))).map
          (fun j => r.byteAt (r.pos + (((B - H) - s) + j))) := by
      conv_lhs => rw [show n = ((B - H) - s) + (n - ((B - H) - s)) by omega]
      rw [List.range_add, List.map_append, List.map_map]
      congr 1
    rw [hsplit]
    have hm1 : (List.range ((B - H) - s)).map (fun i => r.buf.getD (H + s + i) 0) =
        (List.range ((B - H) - s)).map (fun i => r.byteAt (r.pos + i)) := by
      apply List.map_congr_left
      intro i hi
      rw [List.mem_range] at hi
      rw [hbyte i, Nat.mod_eq_of_lt (by omega), Nat.add_assoc]
    have hm2 : (List.range (s + n - (B - H))).map (fun i => r.buf.getD (H + i) 0) =
        (List.range (n - ((B - H) - s))).map
          (fun j => r.byteAt (r.pos + (((B - H) - s) + j))) := by
      rw [show s + n - (B - H) = n - ((B - H) - s) by omega]
      apply List.map_congr_left
      intro j hj
      rw [List.mem_range] at hj
      rw [hbyte (((B - H) - s) + j)]
      rw [show s + (((B - H) - s) + j) = (B - H) + j by omega, Nat.add_mod_left,
        Nat.mod_eq_of_lt (by omega)]
    rw [hm1, hm2]

theorem RingReader.crc32cRange_eq (r : RingReader) (size : Nat)
    (hH : r.header < r.buf.length) (hpos : r.header ≤ r.pos) (h0 : 0 < size)
    (hn : size ≤ r.capacity) (hov : r.pos + size < U64) :
    r.crc32cRange size =
      .ok (crc32cList ((List.range size).map (fun i => r.byteAt (r.pos + i)))) := by
  have hmin : min size r.buf.length = size := by
    have hcap : r.capacity = r.buf.length - r.header := rfl
    rw [hcap] at hn
    omega
  unfold RingReader.crc32cRange
  rw [hmin, r.blockBytes_eq size hH hpos h0 hn hov]
  simp

theorem mach_read_be8 (v : Nat) (h : v < U64) : mach_read_from_8 (be8 v) = v := by
  unfold mach_read_from_8 be8
  simp only [List.getD]
  show v / 2 ^ 56 % 256 * 2 ^ 56 + v / 2 ^ 48 % 256 * 2 ^ 48 + v / 2 ^ 40 % 256 * 2 ^ 40 +
    v / 2 ^ 32 % 256 * 2 ^ 32 + v / 2 ^ 24 % 256 * 2 ^ 24 + v / 2 ^ 16 % 256 * 2 ^ 16 +
    v / 2 ^ 8 % 256 * 2 ^ 8 + v % 256 = v
  unfold U64 at h
  omega

theorem mach_read_be4 (v : Nat) (h : v < 2 ^ 32) : mach_read_from_4 (be4 v) = v := by
  unfold mach_read_from_4 be4
  simp only [List.getD]
  show v / 2 ^ 24 % 256 * 2 ^ 24 + v / 2 ^ 16 % 256 * 2 ^ 16 + v / 2 ^ 8 % 256 * 2 ^ 8 +
    v % 256 = v
  omega

theorem except_ok_bind {α β : Type} (v : α) (f : α → Except ParseErr β) :
    (Except.ok v : Except ParseErr α) >>= f = f v := rfl

theorem decode_ring_small (x : RingReader) (hH : x.header < x.buf.length)
    (hpos : x.header ≤ x.pos) (hc : 1 ≤ x.capacity) (hov : x.pos + 1 < U64)
    (hb : x.byteAt x.pos < MIN_2BYTE) :
    mlog_decode_varint_ring x = .ok (x.byteAt x.pos, { x with pos := x.pos + 1 }) := by
  unfold mlog_decode_varint_ring mlogDecodeVarintG
  rw [x.readU8_eq hH hpos hc hov, except_ok_bind]
  simp only []
  rw [if_pos hb]
  rfl

theorem findEndMarkerLoop_step (fuel payload : Nat) (r : RingReader)
    (hH : r.header < r.buf.length) (hpos : r.header ≤ r.pos) (hc : 1 ≤ r.capacity)
    (hpl : payload < MTR_SIZE_MAX)
    (hb1 : 1 < r.byteAt r.pos) (hb2 : r.byteAt r.pos &&& 0xf ≠ 0)
    (hov : r.pos + 1 + (r.byteAt r.pos &&& 0xf) < U64) :
    findEndMarkerLoop (fuel + 1) payload r =
      findEndMarkerLoop fuel (payload + (r.byteAt r.pos &&& 0xf))
        { r with pos := r.pos + 1 + (r.byteAt r.pos &&& 0xf) } := by
  have hpk : peek_not_end_marker r = .ok () := by
    unfold peek_not_end_marker
    rw [r.peek1_eq hH (by omega)]
    simp only []
    rw [if_neg (by unfold MTR_END_MARKER; omega)]
  have hr1 : r.read1 = (.ok (r.byteAt r.pos), { r with pos := r.pos + 1 }) :=
    r.read1_eq hH hpos hc (by omega)
  have hadv : ({ r with pos := r.pos + 1 } : RingReader).advance (r.byteAt r.pos &&& 0xf) =
      ({ r with pos := r.pos + 1 + (r.byteAt r.pos &&& 0xf) }, true) :=
    RingReader.advance_ok _ _ hov
  have hplF : ¬ (MTR_SIZE_MAX ≤ payload) := by omega
  simp only [findEndMarkerLoop, hplF, hpk, hr1, hadv, hb2, if_false, if_true,
    ite_false, ite_true]

theorem findEndMarkerLoop_stop (fuel payload : Nat) (r : RingReader)
    (hH : r.header < r.buf.length) (hov : r.pos + 1 < U64)
    (hpl : payload < MTR_SIZE_MAX) (hb : r.byteAt r.pos ≤ 1) :
    findEndMarkerLoop (fuel + 1) payload r = (.ok payload, r) := by
  have hpk : peek_not_end_marker r = .error .notFound := by
    unfold peek_not_end_marker
    rw [r.peek1_eq hH hov]
    simp only []
    rw [if_pos (by unfold MTR_END_MARKER; omega)]
  have hplF : ¬ (MTR_SIZE_MAX ≤ payload) := by omega
  simp only [findEndMarkerLoop, hplF, hpk, if_false, if_true, ite_false, ite_true]

theorem find_end_marker_fc (r : RingReader) (hH : r.header < r.buf.length)
    (hpos : r.header ≤ r.pos) (hcap : 16 ≤ r.capacity) (hov : r.pos + 20 < U64)
    (hb0 : r.byteAt r.pos = 0xfa) (hb11 : r.byteAt (r.pos + 11) ≤ 1) :
    find_end_marker r = (.ok 10, { r with pos := r.pos + 11 }) := by
  have hand : (0xfa : Nat) &&& 0xf = 10 := by decide
  have hms : MTR_SIZE_MAX = 1048575 + 1 := by decide
  unfold find_end_marker
  rw [findEndMarkerLoop_step MTR_SIZE_MAX 0 r hH hpos (by omega)
    (by decide)
    (by rw [hb0]; norm_num)
    (by rw [hb0, hand]; norm_num)
    (by rw [hb0, hand]; omega)]
  rw [hb0, hand, hms]
  rw [findEndMarkerLoop_stop 1048575 (0 + 10) { r with pos := r.pos + 1 + 10 } hH
    (by show r.pos + 1 + 10 + 1 < U64; omega)
    (by decide)
    (by show r.byteAt (r.pos + 1 + 10) ≤ 1
        rw [show r.pos + 1 + 10 = r.pos + 11 from by omega]
        exact hb11)]

theorem recordIter_stop (t : Nat) (x : RingReader) (got : Bool) (sid pno : Nat)
    (acc : List Mtr) (hH : x.header < x.buf.length) (hov : x.pos + 1 < U64)
    (hb : x.byteAt x.pos ≤ 1) :
    recordIter t x got sid pno acc = .ok (.done acc) := by
  have hp : x.peek1 = .ok (x.byteAt x.pos) := RingReader.peek1_eq x hH hov
  have hcond : x.byteAt x.pos ≤ MTR_END_MARKER := by
    unfold MTR_END_MARKER
    omega
  simp only [recordIter, hp, hcond, if_true, ite_true]

theorem recordIter_fc (t L : Nat) (r : RingReader) (hH : r.header < r.buf.length)
    (hpos : r.header ≤ r.pos) (hcap : 16 ≤ r.capacity) (hov : r.pos + 20 < U64)
    (hL : L < U64)
    (hb0 : r.byteAt r.pos = 0xfa) (hb1 : r.byteAt (r.pos + 1) = 0)
    (hb2 : r.byteAt (r.pos + 2) = 0)
    (hb3 : ∀ i, i < 8 → r.byteAt (r.pos + 3 + i) = (be8 L).getD i 0) :
    recordIter t r false 0 0 [] =
      .ok (.next { r with pos := r.pos + 19 } false 0 0
        [⟨0, 0, .FileCheckpoint, some L, t⟩]) := by
  have hp0 : r.peek1 = .ok 0xfa := by
    rw [r.peek1_eq hH (by omega), hb0]
  have haddp : r.addPos 1 = { r with pos := r.pos + 1 } :=
    r.addPos_eq 1 (by omega)
  have hle : ¬((0xfa : Nat) ≤ MTR_END_MARKER) := by decide
  have hne : ¬((0xfa : Nat) &&& 0xf = 0) := by decide
  have hand : (0xfa : Nat) &&& 0xf = 10 := by decide
  have hten : ¬((10 : Nat) = 0) := by decide
  have hp1 : ({ r with pos := r.pos + 1 } : RingReader).peek1 = .ok 0 := by
    rw [RingReader.peek1_eq { r with pos := r.pos + 1 } (by exact hH)
      (by show r.pos + 1 + 1 < U64; omega)]
    show Except.ok (r.byteAt (r.pos + 1)) = _
    rw [hb1]
  have hv1 : mlog_decode_varint_ring ({ r with pos := r.pos + 1 } : RingReader) =
      .ok (0, { r with pos := r.pos + 2 }) := by
    rw [decode_ring_small { r with pos := r.pos + 1 } (by exact hH)
      (by show r.header ≤ r.pos + 1; omega)
      (by show 1 ≤ r.capacity; omega) (by show r.pos + 1 + 1 < U64; omega)
      (by show r.byteAt (r.pos + 1) < MIN_2BYTE; rw [hb1]; decide)]
    show Except.ok ((r.byteAt (r.pos + 1) : Nat),
      ({ r with pos := r.pos + 1 + 1 } : RingReader)) =
      Except.ok (0, ({ r with pos := r.pos + 2 } : RingReader))
    rw [hb1]
  have hp2 : ({ r with pos := r.pos + 2 } : RingReader).peek1 = .ok 0 := by
    rw [RingReader.peek1_eq { r with pos := r.pos + 2 } (by exact hH)
      (by show r.pos + 2 + 1 < U64; omega)]
    show Except.ok (r.byteAt (r.pos + 2)) = _
    rw [hb2]
  have hv2 : mlog_decode_varint_ring ({ r with pos := r.pos + 2 } : RingReader) =
      .ok (0, { r with pos := r.pos + 3 }) := by
    rw [decode_ring_small { r with pos := r.pos + 2 } (by exact hH)
      (by show r.header ≤ r.pos + 2; omega)
      (by show 1 ≤ r.capacity; omega) (by show r.pos + 2 + 1 < U64; omega)
      (by show r.byteAt (r.pos + 2) < MIN_2BYTE; rw [hb2]; decide)]
    show Except.ok ((r.byteAt (r.pos + 2) : Nat),
      ({ r with pos := r.pos + 2 + 1 } : RingReader)) =
      Except.ok (0, ({ r with pos := r.pos + 3 } : RingReader))
    rw [hb2]
  have hlen0 : mlog_decode_varint_length 0 = 1 := by decide
  have hf1 : ¬((10 : Nat) < 1) := by decide
  have hf2 : ¬((10 : Nat) - 1 < 1) := by decide
  have hbeq : ((0xfa : Nat) &&& 0x80 == 0) = false := by decide
  have h0r : (0 : Nat) < 10 - 1 - 1 := by decide
  have hxx : (0xfa : Nat) &&& 0xf0 = 0xf0 := by decide
  have h8list : (List.range 8).map (fun i => r.byteAt (r.pos + 3 + i)) = be8 L := by
    have e : List.range 8 = [0, 1, 2, 3, 4, 5, 6, 7] := rfl
    rw [e]
    show [r.byteAt (r.pos + 3 + 0), r.byteAt (r.pos + 3 + 1), r.byteAt (r.pos + 3 + 2),
      r.byteAt (r.pos + 3 + 3), r.byteAt (r.pos + 3 + 4), r.byteAt (r.pos + 3 + 5),
      r.byteAt (r.pos + 3 + 6), r.byteAt (r.pos + 3 + 7)] = be8 L
    rw [hb3 0 (by omega), hb3 1 (by omega), hb3 2 (by omega), hb3 3 (by omega),
      hb3 4 (by omega), hb3 5 (by omega), hb3 6 (by omega), hb3 7 (by omega)]
    rfl
  have h8 : ({ r with pos := r.pos + 3 } : RingReader).read8 =
      (.ok L, { r with pos := r.pos + 11 }) := by
    rw [RingReader.read8_eq { r with pos := r.pos + 3 } (by exact hH)
      (by show r.header ≤ r.pos + 3; omega)
      (by show 8 ≤ r.capacity; omega) (by show r.pos + 3 + 8 < U64; omega)]
    show (Except.ok (mach_read_from_8
        ((List.range 8).map (fun i => r.byteAt (r.pos + 3 + i)))),
      ({ r with pos := r.pos + 3 + 8 } : RingReader)) = _
    rw [h8list, mach_read_be8 L hL]
  have hof : MtrOperation.ofByte 0xf0 = .ok .FileCheckpoint := rfl
  have hap : ({ r with pos := r.pos + 11 } : RingReader).addPos (10 - 1 - 1) =
      { r with pos := r.pos + 19 } := by
    rw [RingReader.addPos_eq { r with pos := r.pos + 11 } (10 - 1 - 1)
      (by show r.pos + 11 + (10 - 1 - 1) < U64; omega)]
  simp only [recordIter, hp0, haddp, hle, rlenStep, hne, hand, idStep,
    eq_self_iff_true, true_or, or_true, hp1, hv1, hlen0, hf1, hp2, hv2, hf2, hbeq,
    tailStep, Bool.false_eq_true, h0r, hten, hxx, h8, hof, hap, List.nil_append,
    if_false, if_true, ite_false, ite_true]

theorem recordLoop_succ (t fuel : Nat) (l : RingReader) (got : Bool) (sid pno : Nat)
    (acc : List Mtr) :
    recordLoop t (fuel + 1) l got sid pno acc =
      match recordIter t l got sid pno acc with
      | .error e => .error e
      | .ok (.done acc2) => .ok acc2
      | .ok (.next l2 got2 sid2 pno2 acc2) => recordLoop t fuel l2 got2 sid2 pno2 acc2 := rfl

theorem recordLoop_fc (t L : Nat) (r : RingReader) (hH : r.header < r.buf.length)
    (hpos : r.header ≤ r.pos) (hcap : 16 ≤ r.capacity) (hov : r.pos + 20 < U64)
    (hL : L < U64)
    (hb0 : r.byteAt r.pos = 0xfa) (hb1 : r.byteAt (r.pos + 1) = 0)
    (hb2 : r.byteAt (r.pos + 2) = 0)
    (hb3 : ∀ i, i < 8 → r.byteAt (r.pos + 3 + i) = (be8 L).getD i 0)
    (hb19 : r.byteAt (r.pos + 19) ≤ 1) :
    recordLoop t (U64 + 1) r false 0 0 [] =
      .ok [⟨0, 0, .FileCheckpoint, some L, t⟩] := by
  have hiter := recordIter_fc t L r hH hpos hcap hov hL hb0 hb1 hb2 hb3
  have hstop : recordIter t ({ r with pos := r.pos + 19 } : RingReader) false 0 0
      [⟨0, 0, .FileCheckpoint, some L, t⟩] =
      .ok (.done [⟨0, 0, .FileCheckpoint, some L, t⟩]) := by
    exact recordIter_stop t { r with pos := r.pos + 19 } false 0 0
      [⟨0, 0, .FileCheckpoint, some L, t⟩] (by exact hH)
      (by show r.pos + 19 + 1 < U64; omega)
      (by show r.byteAt (r.pos + 19) ≤ 1; exact hb19)
  have hU : U64 = 18446744073709551615 + 1 := by decide
  rw [recordLoop_succ, hiter]
  show recordLoop t U64 ({ r with pos := r.pos + 19 } : RingReader) false 0 0
    [⟨0, 0, .FileCheckpoint, some L, t⟩] = .ok [⟨0, 0, .FileCheckpoint, some L, t⟩]
  rw [hU, recordLoop_succ, hstop]

theorem capacity_set_pos (r : RingReader) (p : Nat) :
    ({ r with pos := p } : RingReader).capacity = r.capacity := rfl

theorem get_sequence_bit_le (h c l : Nat) : get_sequence_bit h c l ≤ 1 := by
  unfold get_sequence_bit
  split <;> omega

theorem fcPayload_bytes_lt (L : Nat) : ∀ b ∈ fcPayload L, b < 2 ^ 32 := by
  intro b hb
  simp only [fcPayload, be8, List.mem_cons, List.not_mem_nil, or_false] at hb
  rcases hb with h | h | h | h | h | h | h | h | h | h | h <;> subst h <;> omega

theorem parse_next_wrong_generation (r r1 : RingReader) (plen tb : Nat)
    (hpeek : peek_not_end_marker r = .ok ())
    (hfem : find_end_marker r = (.ok plen, r1))
    (htb : (r.addPos (r1.pos - r.pos)).peek1 = .ok tb)
    (hne : tb ≠ get_sequence_bit r1.header r1.capacity (r.pos + (r1.pos - r.pos))) :
    parse_next r = (.error .notFound, r1) := by
  simp only [parse_next, hpeek, hfem, htb, hne, ne_eq, not_false_eq_true,
    if_true, ite_true, if_false, ite_false]

theorem parse_next_checksum_mismatch (r r1 : RingReader) (plen tb c : Nat)
    (hH1 : r1.header < r1.buf.length) (hpos1 : r1.header ≤ r1.pos)
    (hc1 : 4 ≤ r1.capacity) (hov1 : r1.pos + 5 < U64)
    (hpeek : peek_not_end_marker r = .ok ())
    (hfem : find_end_marker r = (.ok plen, r1))
    (htb : (r.addPos (r1.pos - r.pos)).peek1 = .ok tb)
    (heq : tb = get_sequence_bit r1.header r1.capacity (r.pos + (r1.pos - r.pos)))
    (hcrc : r.crc32cRange (r1.pos - r.pos) = .ok c)
    (hne : c ≠ mach_read_from_4
      ((List.range 4).map (fun i => r1.byteAt (r1.pos + 1 + i)))) :
    parse_next r = (.error .invalidData, { r1 with pos := r1.pos + 5 }) := by
  have hadv : r1.advance 1 = ({ r1 with pos := r1.pos + 1 }, true) :=
    RingReader.advance_ok r1 1 (by omega)
  have hr4 : ({ r1 with pos := r1.pos + 1 } : RingReader).read4 =
      (.ok (mach_read_from_4
        ((List.range 4).map (fun i => r1.byteAt (r1.pos + 1 + i)))),
       { r1 with pos := r1.pos + 5 }) := by
    rw [RingReader.read4_eq { r1 with pos := r1.pos + 1 } (by exact hH1)
      (by show r1.header ≤ r1.pos + 1; omega)
      (by show 4 ≤ r1.capacity; omega)
      (by show r1.pos + 1 + 4 < U64; omega)]
    show (Except.ok (mach_read_from_4
        ((List.range 4).map (fun i => r1.byteAt (r1.pos + 1 + i)))),
      ({ r1 with pos := r1.pos + 1 + 4 } : RingReader)) = _
    rfl
  simp only [parse_next, hpeek, hfem, htb, heq, hcrc, hadv, hr4, hne, ne_eq,
    eq_self_iff_true, not_true, not_false_eq_true, if_true, ite_true, if_false,
    ite_false]

theorem parse_next_fc (L : Nat) (r : RingReader) (hH : r.header < r.buf.length)
    (hpos : r.header ≤ r.pos) (hcap : 16 ≤ r.capacity) (hov : r.pos + 20 < U64)
    (hL : L < U64)
    (hb0 : r.byteAt r.pos = 0xfa) (hb1 : r.byteAt (r.pos + 1) = 0)
    (hb2 : r.byteAt (r.pos + 2) = 0)
    (hb3 : ∀ i, i < 8 → r.byteAt (r.pos + 3 + i) = (be8 L).getD i 0)
    (hb11 : r.byteAt (r.pos + 11) = get_sequence_bit r.header r.capacity (r.pos + 11))
    (hb12 : ∀ i, i < 4 →
      r.byteAt (r.pos + 12 + i) = (be4 (crc32cList (fcPayload L))).getD i 0)
    (hb19 : r.byteAt (r.pos + 19) ≤ 1) :
    parse_next r = (.ok ⟨r.pos, 16, crc32cList (fcPayload L),
        [⟨0, 0, .FileCheckpoint, some L,
          get_sequence_bit r.header r.capacity (r.pos + 11)⟩]⟩,
      { r with pos := r.pos + 16 }) := by
  have hpeek : peek_not_end_marker r = .ok () := by
    unfold peek_not_end_marker
    rw [r.peek1_eq hH (by omega)]
    simp only []
    rw [if_neg (by rw [hb0]; decide)]
  have hfem : find_end_marker r = (.ok 10, { r with pos := r.pos + 11 }) :=
    find_end_marker_fc r hH hpos hcap hov hb0
      (by rw [hb11]; exact get_sequence_bit_le _ _ _)
  have haddp11 : r.addPos 11 = { r with pos := r.pos + 11 } :=
    r.addPos_eq 11 (by omega)
  have hp11 : ({ r with pos := r.pos + 11 } : RingReader).peek1 =
      .ok (get_sequence_bit r.header r.capacity (r.pos + 11)) := by
    rw [RingReader.peek1_eq { r with pos := r.pos + 11 } (by exact hH)
      (by show r.pos + 11 + 1 < U64; omega)]
    show Except.ok (r.byteAt (r.pos + 11)) = _
    rw [hb11]
  have hl11 : (List.range 11).map (fun i => r.byteAt (r.pos + i)) = fcPayload L := by
    have e : List.range 11 = [0, 1, 2, 3, 4, 5, 6, 7, 8, 9, 10] := rfl
    rw [e]
    show [r.byteAt (r.pos + 0), r.byteAt (r.pos + 1), r.byteAt (r.pos + 2),
      r.byteAt (r.pos + 3), r.byteAt (r.pos + 4), r.byteAt (r.pos + 5),
      r.byteAt (r.pos + 6), r.byteAt (r.pos + 7), r.byteAt (r.pos + 8),
      r.byteAt (r.pos + 9), r.byteAt (r.pos + 10)] = fcPayload L
    rw [show r.byteAt (r.pos + 0) = 0xfa from hb0, hb1, hb2,
      show r.byteAt (r.pos + 3) = (be8 L).getD 0 0 from hb3 0 (by omega),
      show r.byteAt (r.pos + 4) = (be8 L).getD 1 0 from hb3 1 (by omega),
      show r.byteAt (r.pos + 5) = (be8 L).getD 2 0 from hb3 2 (by omega),
      show r.byteAt (r.pos + 6) = (be8 L).getD 3 0 from hb3 3 (by omega),
      show r.byteAt (r.pos + 7) = (be8 L).getD 4 0 from hb3 4 (by omega),
      show r.byteAt (r.pos + 8) = (be8 L).getD 5 0 from hb3 5 (by omega),
      show r.byteAt (r.pos + 9) = (be8 L).getD 6 0 from hb3 6 (by omega),
      show r.byteAt (r.pos + 10) = (be8 L).getD 7 0 from hb3 7 (by omega)]
    rfl
  have hcrc : r.crc32cRange 11 = .ok (crc32cList (fcPayload L)) := by
    rw [r.crc32cRange_eq 11 hH hpos (by decide) (by omega) (by omega), hl11]
  have h1adv : ({ r with pos := r.pos + 11 } : RingReader).advance 1 =
      ({ r with pos := r.pos + 12 }, true) := by
    rw [RingReader.advance_ok { r with pos := r.pos + 11 } 1
      (by show r.pos + 11 + 1 < U64; omega)]
  have hr4 : ({ r with pos := r.pos + 12 } : RingReader).read4 =
      (.ok (crc32cList (fcPayload L)), { r with pos := r.pos + 16 }) := by
    rw [RingReader.read4_eq { r with pos := r.pos + 12 } (by exact hH)
      (by show r.header ≤ r.pos + 12; omega)
      (by show 4 ≤ r.capacity; omega)
      (by show r.pos + 12 + 4 < U64; omega)]
    show (Except.ok (mach_read_from_4
        ((List.range 4).map (fun i => r.byteAt (r.pos + 12 + i)))),
      ({ r with pos := r.pos + 12 + 4 } : RingReader)) = _
    have h4list : (List.range 4).map (fun i => r.byteAt (r.pos + 12 + i)) =
        be4 (crc32cList (fcPayload L)) := by
      have e : List.range 4 = [0, 1, 2, 3] := rfl
      rw [e]
      show [r.byteAt (r.pos + 12 + 0), r.byteAt (r.pos + 12 + 1),
        r.byteAt (r.pos + 12 + 2), r.byteAt (r.pos + 12 + 3)] = _
      rw [hb12 0 (by omega), hb12 1 (by omega), hb12 2 (by omega),
        hb12 3 (by omega)]
      rfl
    rw [h4list, mach_read_be4 _ (crc32cList_lt _ (fcPayload_bytes_lt L))]
  have hrl : recordLoop (get_sequence_bit r.header r.capacity (r.pos + 11))
      (U64 + 1) r false 0 0 [] =
      .ok [⟨0, 0, .FileCheckpoint, some L,
        get_sequence_bit r.header r.capacity (r.pos + 11)⟩] :=
    recordLoop_fc _ L r hH hpos hcap hov hL hb0 hb1 hb2 hb3 hb19
  have hlen : (11 : Nat) + 1 + 4 = 16 := by decide
  simp only [parse_next, hpeek, hfem, Nat.add_sub_cancel_left, haddp11, hp11,
    capacity_set_pos, ne_eq, eq_self_iff_true, not_true, hcrc, h1adv, hr4, hrl,
    hlen, if_true, ite_true, if_false, ite_false]

/-! ## Claim C8: wrong-generation terminator -/

/-- C8: if the byte found at the chain's terminator position (located by
`find_end_marker`) differs from the generation bit at that LSN,
`MtrChain::parse_next` fails with the benign `NotFound`
(`WrongGeneration` / end-of-stream) outcome.  The check happens before
CRC verification — no CRC is read and the `ChainChecksum`
(`invalidData`) error cannot be produced for such a chain. -/
theorem c8_wrong_generation_notFound (r r1 : RingReader) (plen tb : Nat)
    (hpeek : peek_not_end_marker r = .ok ())
    (hfem : find_end_marker r = (.ok plen, r1))
    (htb : (r.addPos (r1.pos - r.pos)).peek1 = .ok tb)
    (hne : tb ≠ get_sequence_bit r1.header r1.capacity (r.pos + (r1.pos - r.pos))) :
    parse_next r = (.error .notFound, r1) :=
  parse_next_wrong_generation r r1 plen tb hpeek hfem htb hne

/-- The C8 witness chain: a `FILE_CHECKPOINT` chain at LSN 0 whose
terminator byte is flipped to 0 while the generation bit there is 1. -/
def c8buf : List Nat :=
  fcPayload 0 ++ [0] ++ be4 (crc32cList (fcPayload 0)) ++ List.replicate 16 0

/-- C8 witness. -/
theorem c8_wrong_generation_witness :
    parse_next { buf := c8buf, pos := 0, header := 0 } =
      (.error .notFound, { buf := c8buf, pos := 11, header := 0 }) :=
  c8_wrong_generation_notFound { buf := c8buf, pos := 0, header := 0 }
    { buf := c8buf, pos := 11, header := 0 } 10 0 (by rfl) (by rfl) (by rfl)
    (by decide)

/-! ## Claim C10: reader position after a chain-checksum mismatch -/

/-- C10: when `MtrChain::parse_next` fails with a chain-checksum mismatch
(`ChainChecksum`, modelled as `invalidData`), the error is returned only
after the reader has been advanced past the terminator byte and the 4
stored CRC bytes: its final position is chain start + payload length + 5,
and it is not restored to its position at entry. -/
theorem c10_checksum_error_reader_advanced (r r1 : RingReader) (plen tb c : Nat)
    (hH1 : r1.header < r1.buf.length) (hpos1 : r1.header ≤ r1.pos)
    (hc1 : 4 ≤ r1.capacity) (hov1 : r1.pos + 5 < U64) (hge : r.pos ≤ r1.pos)
    (hpeek : peek_not_end_marker r = .ok ())
    (hfem : find_end_marker r = (.ok plen, r1))
    (htb : (r.addPos (r1.pos - r.pos)).peek1 = .ok tb)
    (heq : tb = get_sequence_bit r1.header r1.capacity (r.pos + (r1.pos - r.pos)))
    (hcrc : r.crc32cRange (r1.pos - r.pos) = .ok c)
    (hne : c ≠ mach_read_from_4
      ((List.range 4).map (fun i => r1.byteAt (r1.pos + 1 + i)))) :
    parse_next r =
      (.error .invalidData, { r1 with pos := r.pos + (r1.pos - r.pos) + 5 }) := by
  rw [parse_next_checksum_mismatch r r1 plen tb c hH1 hpos1 hc1 hov1 hpeek hfem
    htb heq hcrc hne]
  rw [show r.pos + (r1.pos - r.pos) + 5 = r1.pos + 5 from by omega]

/-- The C10 witness chain: a `FILE_CHECKPOINT` chain at LSN 0 with a
correct terminator byte but zeroed stored-CRC bytes. -/
def c10buf : List Nat :=
  fcPayload 0 ++ [1] ++ [0, 0, 0, 0] ++ List.replicate 16 0

/-- C10 witness: the checksum error comes back with the reader at
position 16 = chain start 0 + payload length 11 + 5. -/
theorem c10_checksum_error_witness :
    parse_next { buf := c10buf, pos := 0, header := 0 } =
      (.error .invalidData, { buf := c10buf, pos := 16, header := 0 }) :=
  c10_checksum_error_reader_advanced { buf := c10buf, pos := 0, header := 0 }
    { buf := c10buf, pos := 11, header := 0 } 10 1 (crc32cList (fcPayload 0))
    (by decide) (by decide) (by decide) (by decide) (by decide)
    (by rfl) (by rfl) (by rfl) (by decide) (by rfl) (by decide)

/-! ## Claim C1: the CRC region of a chain -/

/-- The C1 counterexample chain: the builder's own output for LSN 0. -/
def c1buf : List Nat :=
  fcPayload 0 ++ [1] ++ be4 (crc32cList (fcPayload 0)) ++ List.replicate 16 0

/-- C1 counterexample: the claim says the stored CRC-32C covers
`payload‖marker` with the terminator byte inside the CRC region, and that
the builder stores the CRC over the 11 payload bytes together with the
terminator that follows them.  The builder's output for
`(header, capacity, lsn) = (0, 32, 0)` stores `be4 (crc32c(payload))` —
the CRC over the 11 payload bytes alone — which differs from the CRC over
`payload‖marker`; and the parser accepts exactly this chain, reporting
`crc32c(payload)` as the chain checksum. -/
theorem c1_counterexample :
    build_file_checkpoint 0 32 0 =
      .ok (fcPayload 0 ++ [1] ++ be4 (crc32cList (fcPayload 0))) ∧
    crc32cList (fcPayload 0 ++ [1]) ≠ crc32cList (fcPayload 0) ∧
    (parse_next { buf := c1buf, pos := 0, header := 0 }).1 =
      .ok ⟨0, 16, crc32cList (fcPayload 0),
        [⟨0, 0, .FileCheckpoint, some 0, 1⟩]⟩ :=
  ⟨rfl, by decide, rfl⟩

/-- C1 (amended): the CRC-32C region of a chain excludes the terminator
byte.  `Mtr::build_file_checkpoint` stores `crc32c` over the 11 payload
bytes only (the terminator and the 4 CRC bytes are outside), and the
parser's `RingReader::crc32c(n)` — called by `parse_next` with
`n = termination_marker_offset` — covers exactly the `n` bytes
`[pos, pos + n)`, i.e. the payload up to but excluding the terminator. -/
theorem c1_crc_region (header capacity lsn : Nat) (hlo : header ≤ lsn)
    (hhi : lsn < U64 - 1 - 16) :
    build_file_checkpoint header capacity lsn =
      .ok (fcPayload lsn ++ [get_sequence_bit header capacity (lsn + 1 + 2 + 8)] ++
        be4 (crc32cList (fcPayload lsn))) ∧
    ∀ (r : RingReader) (n : Nat), r.header < r.buf.length → r.header ≤ r.pos →
      0 < n → n ≤ r.capacity → r.pos + n < U64 →
      r.crc32cRange n =
        .ok (crc32cList ((List.range n).map (fun i => r.byteAt (r.pos + i)))) := by
  constructor
  · unfold build_file_checkpoint
    rw [if_neg (by omega), if_neg (by omega)]
  · intro r n h1 h2 h3 h4 h5
    exact r.crc32cRange_eq n h1 h2 h3 h4 h5

/-- C1 witness. -/
theorem c1_crc_region_witness :
    build_file_checkpoint 0 32 0 =
      .ok (fcPayload 0 ++ [get_sequence_bit 0 32 (0 + 1 + 2 + 8)] ++
        be4 (crc32cList (fcPayload 0))) ∧
    RingReader.crc32cRange { buf := [1, 2, 3, 4], pos := 0, header := 0 } 2 =
      .ok (crc32cList ((List.range 2).map
        (fun i => RingReader.byteAt { buf := [1, 2, 3, 4], pos := 0, header := 0 }
          (0 + i)))) :=
  ⟨(c1_crc_region 0 32 0 (by decide) (by decide)).1,
   (c1_crc_region 0 32 0 (by decide) (by decide)).2
     { buf := [1, 2, 3, 4], pos := 0, header := 0 } 2 (by decide) (by decide)
     (by decide) (by decide) (by decide)⟩

/-! ## Claim C3: builder / parser round-trip -/

/-- The C3 counterexample ring: first_lsn 16, capacity 16, holding the
builder's 16-byte chain for `lsn = 2^58` (which occupies the whole ring
body, so positions past the chain wrap back onto its first bytes). -/
def c3buf2 : List Nat :=
  List.replicate 16 0 ++ [250, 0, 0, 4, 0, 0, 0, 0, 0, 0, 0, 0, 126, 191, 138, 110]

/-- C3 counterexample: the claim says the builder succeeds for every
`first_lsn ≤ lsn ≤ u64::MAX − 16` and that parsing the emitted chain
yields exactly one record.  (a) At the claimed upper bound
`lsn = u64::MAX − 16` the builder fails (`build_file_checkpoint` rejects
`lsn ≥ u64::MAX − 16`, not only `lsn > u64::MAX − 16`).  (b) For
`(first_lsn, capacity, lsn) = (16, 16, 2^58)` the builder succeeds, but
parsing the emitted chain yields a chain with **two** records: the
`FILE_CHECKPOINT` arm consumes the 8 LSN bytes with `read_8` and then
advances by the undecremented record length again, so the record loop
resumes 8 bytes past the record and, with the 16-byte ring wrapped, reads
a spurious second record before reaching a terminator. -/
theorem c3_counterexample :
    build_file_checkpoint 12288 20 (U64 - 1 - 16) = .error .unexpectedEof ∧
    build_file_checkpoint 16 16 (2 ^ 58) =
      .ok [250, 0, 0, 4, 0, 0, 0, 0, 0, 0, 0, 0, 126, 191, 138, 110] ∧
    parse_next { buf := c3buf2, pos := 2 ^ 58, header := 16 } =
      (.ok ⟨2 ^ 58, 16, 2126482030,
        [⟨0, 0, .FileCheckpoint, some (2 ^ 58), 0⟩,
         ⟨0, 0, .FreePage, none, 0⟩]⟩,
       { buf := c3buf2, pos := 2 ^ 58 + 16, header := 16 }) :=
  ⟨rfl, rfl, rfl⟩

/-- C3 (amended): round-trip for a ring reader positioned at `lsn` whose
ring holds the builder's bytes at `[lsn, lsn + 16)`, with first_lsn
`r.header` and capacity `r.capacity`.  When the builder's input is valid
(`header ≤ lsn`, `lsn + 20 < 2^64`, capacity at least 16) and the byte at
`lsn + 19` — *outside* the chain, reached because the record loop
double-advances past the `FILE_CHECKPOINT` LSN — is a terminator value,
the builder succeeds with exactly 16 bytes and parsing yields a chain of
byte length 16 with exactly one `FILE_CHECKPOINT` record whose
`file_checkpoint_lsn` equals `lsn`. -/
theorem c3_round_trip (r : RingReader) (hH : r.header < r.buf.length)
    (hpos : r.header ≤ r.pos) (hcap : 16 ≤ r.capacity) (hov : r.pos + 20 < U64)
    (hbuilt : ∀ i, i < 16 → r.byteAt (r.pos + i) =
      (fcPayload r.pos ++ [get_sequence_bit r.header r.capacity (r.pos + 11)] ++
        be4 (crc32cList (fcPayload r.pos))).getD i 0)
    (hb19 : r.byteAt (r.pos + 19) ≤ 1) :
    build_file_checkpoint r.header r.capacity r.pos =
      .ok (fcPayload r.pos ++ [get_sequence_bit r.header r.capacity (r.pos + 11)] ++
        be4 (crc32cList (fcPayload r.pos))) ∧
    (fcPayload r.pos ++ [get_sequence_bit r.header r.capacity (r.pos + 11)] ++
      be4 (crc32cList (fcPayload r.pos))).length = 16 ∧
    parse_next r = (.ok ⟨r.pos, 16, crc32cList (fcPayload r.pos),
        [⟨0, 0, .FileCheckpoint, some r.pos,
          get_sequence_bit r.header r.capacity (r.pos + 11)⟩]⟩,
      { r with pos := r.pos + 16 }) := by
  refine ⟨?_, ?_, ?_⟩
  · unfold build_file_checkpoint
    rw [if_neg (by omega), if_neg (by omega),
      show r.pos + 1 + 2 + 8 = r.pos + 11 from by omega]
  · simp [fcPayload, be8, be4]
  · refine parse_next_fc r.pos r hH hpos hcap hov (by omega)
      (hbuilt 0 (by omega)) (hbuilt 1 (by omega)) (hbuilt 2 (by omega))
      ?_ (hbuilt 11 (by omega)) ?_ hb19
    · intro i hi
      interval_cases i
      · exact hbuilt 3 (by omega)
      · exact hbuilt 4 (by omega)
      · exact hbuilt 5 (by omega)
      · exact hbuilt 6 (by omega)
      · exact hbuilt 7 (by omega)
      · exact hbuilt 8 (by omega)
      · exact hbuilt 9 (by omega)
      · exact hbuilt 10 (by omega)
    · intro i hi
      interval_cases i
      · exact hbuilt 12 (by omega)
      · exact hbuilt 13 (by omega)
      · exact hbuilt 14 (by omega)
      · exact hbuilt 15 (by omega)

/-- The C3 witness ring: the builder's chain for LSN 0 at the start of a
32-byte ring with first_lsn 0, followed by zero padding. -/
def c3wbuf : List Nat :=
  fcPayload 0 ++ [1] ++ be4 (crc32cList (fcPayload 0)) ++ List.replicate 16 0

/-- C3 witness. -/
theorem c3_round_trip_witness :
    build_file_checkpoint 0 32 0 =
      .ok (fcPayload 0 ++ [get_sequence_bit 0 32 11] ++
        be4 (crc32cList (fcPayload 0))) ∧
    (fcPayload 0 ++ [get_sequence_bit 0 32 11] ++
      be4 (crc32cList (fcPayload 0))).length = 16 ∧
    parse_next { buf := c3wbuf, pos := 0, header := 0 } =
      (.ok ⟨0, 16, crc32cList (fcPayload 0),
        [⟨0, 0, .FileCheckpoint, some 0, get_sequence_bit 0 32 11⟩]⟩,
       { buf := c3wbuf, pos := 16, header := 0 }) :=
  c3_round_trip { buf := c3wbuf, pos := 0, header := 0 } (by decide) (by decide)
    (by decide) (by decide) (by decide) (by decide)
